import Mathlib

/-!
Verification development for the QA-evaluation backend.

This file gives a shallow embedding of the core of the Express/TypeORM
backend: the stage-unlock evaluator (src/routes/stages.ts, isStageUnlocked),
the answer grader, the OpenRouter delegate wrappers
(src/services/openRouterService.ts) and the evaluation-submission
orchestrator (the POST /attempts handler of the feedback router), together
with theorems about them.

Modelling conventions:
- JavaScript numbers are modelled as exact integers (ids, scores, counters)
  or exact rationals (the one intermediate ratio in the score computation).
  NaN produced by Number(...) conversions is modelled as Option.none.
- null and undefined both become Option.none; where the distinction is
  observable (strict equality: null === undefined is false in JS) the
  embedding keeps the JS behaviour explicitly (see jsStrictEq).
- The external AI delegate is an oracle input: each call site receives the
  observable outcome of the HTTP call and of JSON.parse on its body
  (transport failure, parse failure, or a parsed object), exactly the three
  ways the source distinguishes them.
- Database persistence is a record of tables (lists of rows); the
  TypeORM query-runner transaction is modelled by the orchestrator
  returning either the fully written state (commit) or the unchanged
  input state (rollback).  Every repository obtained in the handler comes
  from queryRunner.manager, so every write in the handler is inside the
  transaction; the model reflects that.
- Each save(...) call can throw (constraint violation, connection loss);
  an oracle flag per save site says whether it throws.
- Date.now / new Date() are modelled by a single oracle timestamp.
-/

namespace QAEval

/-! ## JavaScript primitive models -/

/-- Truthiness of a possibly-undefined boolean: undefined is falsy.
Models expressions such as `previousUserStage?.isCompleted || false`. -/
def jsTruthy : Option Bool → Bool
  | some b => b
  | none => false

/-- Whitespace as skipped by parseInt. -/
def jsIsSpace (c : Char) : Bool :=
  c == ' ' || c == '\t' || c == '\n' || c == '\r'

/-- Value of a decimal digit character. -/
def digitVal (c : Char) : Nat := c.toNat - 48

/-- JS parseInt with default radix: skip leading whitespace, optional
sign, then the maximal run of decimal digits; NaN (none) when no digit
follows.  The radix-prefix forms (0x...) are not reachable from the
grading call sites and are not modelled; any successfully parsed value is
simply an index, which is all the grading code consumes. -/
def jsParseInt (s : String) : Option Int :=
  let cs := s.data.dropWhile jsIsSpace
  let signed : Int × List Char :=
    match cs with
    | '-' :: rest => (-1, rest)
    | '+' :: rest => (1, rest)
    | _ => (1, cs)
  let ds := signed.2.takeWhile Char.isDigit
  if ds.isEmpty then none
  else some (signed.1 * (ds.foldl (fun acc c => acc * 10 + digitVal c) 0 : Nat))

/-- JS optional-chained array indexing `options?.[i]` where the index may
be NaN (none) and the array may be null (none): any out-of-range, negative
or NaN index yields undefined (none). -/
def jsIndexGet (options : Option (List String)) (i : Option Int) : Option String :=
  match options, i with
  | some l, some j => if j < 0 then none else l.get? j.toNat
  | _, _ => none

/-- JS strict equality between a possibly-null string and a
possibly-undefined string.  null === undefined is false in JS, so two
missing operands never compare equal; this models
`question.correctAnswer === userSelectedOption`. -/
def jsStrictEq (a b : Option String) : Bool :=
  match a, b with
  | some x, some y => x == y
  | _, _ => false

/-- JS `x || 0` on a nullable integer: null and 0 both give 0. -/
def jsOrZero : Option Int → Int
  | some n => n
  | none => 0

/-- Math.round on a nonnegative JS number, modelled on exact rationals:
round half away from zero, which for nonnegative arguments is the floor
of x + 1/2. -/
def jsRound (q : ℚ) : Int := ⌊q + 1/2⌋

/-! ## Data model (src/entities) -/

/-- Row of the questions table (entities/Question.ts).  The options and
correct_answer columns are nullable. -/
structure Question where
  id : Int
  stageId : Int
  type : String
  questionText : String
  options : Option (List String)
  correctAnswer : Option String
  points : Int
  category : Option String
  difficulty : Option String
deriving Repr, DecidableEq

/-- Row of the stages table (entities/Stage.ts), restricted to the fields
the core flow reads. -/
structure Stage where
  id : Int
  title : String
  isActive : Bool
  displayOrder : Int
deriving Repr, DecidableEq

/-- Row of the user_stages table (entities/UserStage.ts); the UserProgress
record of the spec.  score and completed_at are nullable. -/
structure UserStage where
  userId : Int
  stageId : Int
  isCompleted : Bool
  score : Option Int
  completedAt : Option Int
deriving Repr, DecidableEq

/-- Row of the users table (entities/User.ts), restricted to the fields
the core flow touches. -/
structure User where
  id : Int
  globalScore : Int
  currentStageId : Int
deriving Repr, DecidableEq

/-- Row of the evaluation_attempts table (entities/EvaluationAttempt.ts). -/
structure EvaluationAttempt where
  id : Int
  userId : Int
  stageId : Int
  attemptId : String
  startTime : Int
  endTime : Int
  timeSpentSeconds : Int
  score : Option Int
  isCompleted : Bool
deriving Repr, DecidableEq

/-- Row of the user_responses table (entities/UserResponse.ts).  The
is_correct column is nullable, and the handler can indeed store a missing
value there (an open-question delegate reply that parses but lacks the
isCorrect field). -/
structure UserResponseRow where
  attemptRowId : Int
  questionId : Int
  userId : Int
  response : String
  isCorrect : Option Bool
  pointsEarned : Int
deriving Repr, DecidableEq

/-! ## Stage-unlock evaluator (src/routes/stages.ts, isStageUnlocked) -/

/-- Direct translation of isStageUnlocked: a stage with displayOrder 1 is
always unlocked; otherwise look for the stage whose displayOrder is
exactly one less; if absent, unlock by default; otherwise unlocked iff
that predecessor has a completed user_stages row. -/
def isStageUnlocked (stage : Stage) (stages : List Stage) (userStages : List UserStage) : Bool :=
  if stage.displayOrder == 1 then
    true
  else
    match stages.find? (fun s => s.displayOrder == stage.displayOrder - 1) with
    | none => true
    | some previousStage =>
        jsTruthy ((userStages.find? (fun us => us.stageId == previousStage.id)).map
          (fun us => us.isCompleted))

/-- Claim-side unlock predicate, written from the specification words for
comparison with isStageUnlocked: the stage with the minimum sequence
number is unlocked regardless of progress; a stage whose predecessor is
absent from the catalog is unlocked; otherwise unlocked iff the
predecessor progress record is completed. -/
def unlockedPerSpec (stage : Stage) (stages : List Stage) (userStages : List UserStage) : Bool :=
  if stages.all (fun s => stage.displayOrder ≤ s.displayOrder) then
    true
  else
    match stages.find? (fun s => s.displayOrder == stage.displayOrder - 1) with
    | none => true
    | some previousStage =>
        jsTruthy ((userStages.find? (fun us => us.stageId == previousStage.id)).map
          (fun us => us.isCompleted))

/-! ## Answer grading (POST /attempts handler, response loop) -/

/-- Multiple-choice grading: convert the raw answer to an index with
parseInt, resolve it through the option list with optional chaining, and
compare the resolved option text against the stored correct answer with
strict equality. -/
def mcIsCorrect (question : Question) (answer : String) : Bool :=
  let userAnswerIndex := jsParseInt answer
  let userSelectedOption := jsIndexGet question.options userAnswerIndex
  jsStrictEq question.correctAnswer userSelectedOption

/-- `pointsEarned = isCorrect ? question.points : 0`, where isCorrect may
be undefined for an open question whose delegate reply lacked the field. -/
def pointsEarnedFor (isCorrect : Option Bool) (question : Question) : Int :=
  if jsTruthy isCorrect then question.points else 0

/-- Observable outcome of one open-question delegate call, as
evaluateOpenQuestion distinguishes them: the axios call may throw
(timeout, network, HTTP error status), the returned text may fail
JSON.parse, or it parses to an object whose isCorrect field may be
present or absent. -/
inductive OpenEvalOutcome where
  | transportError
  | parseFailure
  | parsed (isCorrect : Option Bool)
deriving Repr, DecidableEq

/-- openRouterService.evaluateOpenQuestion: a transport error propagates
(generateCompletion rethrows and nothing catches it here); a JSON.parse
failure is caught and becomes the fallback object with isCorrect false;
a parsed object is returned as is. -/
def evaluateOpenQuestion : OpenEvalOutcome → Except Unit (Option Bool)
  | .transportError => .error ()
  | .parseFailure => .ok (some false)
  | .parsed b => .ok b

/-- Per-response grading in the handler loop: multiple-choice questions
are graded synchronously; any other type goes to the delegate, and the
try/catch at the call site turns a thrown delegate error into isCorrect
false. -/
def gradeResponse (question : Question) (answer : String) (outcome : OpenEvalOutcome) :
    Option Bool :=
  if question.type == "multiple-choice" then
    some (mcIsCorrect question answer)
  else
    match evaluateOpenQuestion outcome with
    | .ok b => b
    | .error _ => some false

/-! ## Final score (POST /attempts handler)

The source computes `Math.round((correctCount / responses.length) * 100)`
in IEEE binary64 doubles, so the division and the multiplication each
round to the nearest representable double (ties to even) before
Math.round is applied.  The model below implements exactly that: a
nonnegative double is a dyadic pair (m, g) of value m * 2 ^ g, and
rounding a rational to binary64 rounds it half-to-even on the grid of
representable values of its binade. -/

/-- Fuel-bounded binary logarithm: log2Fuel fuel n is the floor of
log₂ n whenever 1 ≤ n ≤ fuel (the fuel only bounds the recursion
depth; n halves at every step). -/
def log2Fuel : Nat → Nat → Nat
  | 0, _ => 0
  | fuel + 1, n => if 2 ≤ n then log2Fuel fuel (n / 2) + 1 else 0

/-- Floor of log₂ n for n ≥ 1 (n itself is enough fuel). -/
def natLog2 (n : Nat) : Nat := log2Fuel n n

/-- Floor of log₂ (a / b) for a, b ≥ 1: shift a up into the integer
range first (2 ^ (natLog2 b + 1) exceeds b), then take the integer
logarithm of the quotient. -/
def ratLog2Floor (a b : Nat) : Int :=
  (natLog2 (a * 2 ^ (natLog2 b + 1) / b) : Int) - (natLog2 b + 1)

/-- Round the rational a / b to the nearest integer, ties to even: the
rounding every IEEE-754 arithmetic operation applies to its exact
result. -/
def rnHalfEven (a b : Nat) : Nat :=
  if 2 * (a % b) < b then a / b
  else if b < 2 * (a % b) then a / b + 1
  else if (a / b) % 2 = 0 then a / b else a / b + 1

/-- Round the nonnegative rational a / b to the nearest IEEE binary64
value, as a dyadic pair (m, g) of value m * 2 ^ g.  The representable
doubles around a / b are the multiples of the grid 2 ^ (e - 52) where
e is the floor of log₂ (a / b) (53-bit significand), clamped below at
the subnormal spacing 2 ^ (-1074).  Overflow to infinity is not
modelled: the handler's values stay at or below 100 plus one ulp, far
under 2 ^ 1024, and negative doubles never arise here. -/
def roundB64 (a b : Nat) : Nat × Int :=
  if a = 0 then (0, 0)
  else
    let g : Int := max (ratLog2Floor a b - 52) (-1074)
    if 0 ≤ g then (rnHalfEven a (b * 2 ^ g.toNat), g)
    else (rnHalfEven (a * 2 ^ (-g).toNat) b, g)

/-- The binary64 product of the double m * 2 ^ g with the exact constant
100: the exact product, rounded back to a double. -/
def b64Mul100 : Nat × Int → Nat × Int
  | (m, g) =>
      if 0 ≤ g then roundB64 (100 * m * 2 ^ g.toNat) 1
      else roundB64 (100 * m) (2 ^ (-g).toNat)

/-- `Math.round(x)` of a nonnegative double x = m * 2 ^ g: per the
ECMAScript definition this is the integer nearest to the exact value of
x with ties toward positive infinity, that is the floor of x + 1/2 of
the exact dyadic value (no further floating-point evaluation). -/
def jsMathRound : Nat × Int → Int
  | (m, g) =>
      if 0 ≤ g then (m * 2 ^ g.toNat : Nat)
      else ((2 * m + 2 ^ (-g).toNat) / 2 ^ ((-g).toNat + 1) : Nat)

/-- `Math.round((correctCount / responses.length) * 100)` exactly as JS
evaluates it: the quotient is rounded to binary64, the product with 100
is rounded to binary64 again, and Math.round takes the nearest integer
of the result.  Both inputs are exact doubles (a JS array length is
below 2 ^ 32 < 2 ^ 53 and correctCount is at most the length).  Only
reached with a nonempty batch: an empty responses array is rejected
during validation (a zero denominator would give NaN in JS and never
reaches this code). -/
def finalScore (correctCount totalAnswered : Nat) : Int :=
  jsMathRound (b64Mul100 (roundB64 correctCount totalAnswered))

/-- The exact rational value of a dyadic pair, for stating the rounding
error of the binary64 evaluation. -/
def dyadicVal : Nat × Int → ℚ
  | (m, g) => (m : ℚ) * 2 ^ g

/-- The final score as the spec words it: round(100 × correctCount /
totalAnswered) on exact rationals, to be compared with the binary64
evaluation the code actually performs. -/
def finalScorePerSpec (correctCount totalAnswered : Nat) : Int :=
  jsRound ((correctCount : ℚ) / totalAnswered * 100)

/-! ## Feedback delegate (src/services/openRouterService.ts, generateFeedback) -/

/-- The parsed JSON object a feedback delegate reply may yield: each of
the five required fields may be present or absent. -/
structure ParsedFeedback where
  strengths : Option (List String)
  improvements : Option (List String)
  nextSteps : Option String
  detailedFeedback : Option String
  badge : Option String
deriving Repr, DecidableEq

/-- Observable outcome of the feedback delegate call: the axios call may
throw, or the reply (after stripping markdown fences and the
control-character repair pass) may still fail JSON.parse, or it parses. -/
inductive FeedbackOutcome where
  | transportError
  | parseFailure
  | parsed (fields : ParsedFeedback)
deriving Repr, DecidableEq

/-- The concrete feedback payload persisted on the Feedback row. -/
structure FeedbackPayload where
  strengths : List String
  improvements : List String
  nextSteps : String
  detailedFeedback : String
  badge : String
deriving Repr, DecidableEq

/-- The fixed fallback payload returned by generateFeedback when the
delegate reply cannot be parsed or validated. -/
def fallbackFeedback : FeedbackPayload :=
  { strengths := ["Comprensión básica del tema evaluado"]
    improvements := ["Necesita más práctica y estudio"]
    nextSteps := "Continúa estudiando y practicando los conceptos evaluados"
    detailedFeedback := "El usuario mostró un desempeño básico en la evaluación. Se recomienda más estudio y práctica."
    badge := "QA Novice" }

/-- The required-fields check `!parsedResponse.strengths || ...`: an
absent field is falsy, and so is a present but empty string (the two
array fields are truthy whenever present, even when empty). -/
def requiredFieldsPresent (f : ParsedFeedback) : Bool :=
  f.strengths.isSome && f.improvements.isSome &&
  (match f.nextSteps with | some s => s != "" | none => false) &&
  (match f.detailedFeedback with | some s => s != "" | none => false) &&
  (match f.badge with | some s => s != "" | none => false)

/-- openRouterService.generateFeedback: a transport error from
generateCompletion propagates (the try block starts only after that call
returns); inside the try block, a JSON.parse failure or a missing
required field is caught and becomes the fixed fallback payload. -/
def generateFeedback : FeedbackOutcome → Except Unit FeedbackPayload
  | .transportError => .error ()
  | .parseFailure => .ok fallbackFeedback
  | .parsed f =>
      if requiredFieldsPresent f then
        .ok { strengths := f.strengths.getD []
              improvements := f.improvements.getD []
              nextSteps := f.nextSteps.getD ""
              detailedFeedback := f.detailedFeedback.getD ""
              badge := f.badge.getD "" }
      else
        .ok fallbackFeedback

/-! ## Submission orchestrator (POST /attempts handler) -/

/-- Row of the feedback table (entities/Feedback.ts), restricted to the
fields the handler writes. -/
structure FeedbackRow where
  id : Int
  attemptRowId : Int
  userId : Int
  stageId : Int
  score : Int
  totalQuestions : Int
  correctAnswers : Int
  payload : FeedbackPayload
deriving Repr, DecidableEq

/-- The persisted database, one list of rows per table the handler
touches. -/
structure DbState where
  users : List User
  stages : List Stage
  questions : List Question
  userStages : List UserStage
  attempts : List EvaluationAttempt
  userResponses : List UserResponseRow
  feedbacks : List FeedbackRow
deriving Repr, DecidableEq

/-- One element of the responses array of the request body.  questionId
is the result of Number(response.questionId), with none for NaN. -/
structure SubmittedResponse where
  questionId : Option Int
  answer : String
deriving Repr, DecidableEq

/-- The request body of POST /attempts.  userId and stageId are the
results of Number(...) on the raw payload values, with none for NaN. -/
structure SubmitRequest where
  attemptId : String
  userId : Option Int
  stageId : Option Int
  responses : List SubmittedResponse
  timeSpent : Int
deriving Repr, DecidableEq

/-- Oracle inputs of one submission: the wall clock, the outcome of each
grading delegate call (by position of the response in the batch), the
outcome of the feedback delegate call, and whether each save(...) call
throws. -/
structure SubmitOracle where
  now : Int
  aiEval : Nat → OpenEvalOutcome
  feedback : FeedbackOutcome
  failSaveAttempt : Bool
  failSaveResponse : Nat → Bool
  failSaveFeedback : Bool
  failSaveScore : Bool
  failSaveUserStage : Bool
  failSaveUser : Bool

/-- Observable events of one submission, in execution order, for the
temporal claims about the transaction boundary. -/
inductive Ev where
  | beginTransaction
  | saveAttempt
  | saveResponse (index : Nat)
  | invokeFeedbackDelegate
  | saveFeedback
  | saveAttemptScore
  | saveUserStage
  | saveUser
  | commitTransaction
  | rollbackTransaction
deriving Repr, DecidableEq

/-- The HTTP outcome of the handler: 201 with the created feedback row id
and the client attempt id, a 4xx validation response, or the 500 produced
by the catch block. -/
inductive SubmitResult where
  | created (feedbackId : Int) (attemptId : String)
  | clientError (status : Nat)
  | serverError
deriving Repr, DecidableEq

/-- The non-success outcomes the transaction body can produce: an early
validation return with a 4xx status (after an explicit rollback), or a
thrown error that the catch block converts to a 500 (after rollback). -/
inductive TxnError where
  | clientError (status : Nat)
  | serverError
deriving Repr, DecidableEq

/-- The HTTP result of a transaction-body outcome. -/
def TxnError.toResult : TxnError → SubmitResult
  | .clientError status => .clientError status
  | .serverError => .serverError

/-- repository.findOne({ where: { id } }) on users. -/
def findUser (users : List User) (id : Int) : Option User :=
  users.find? (fun u => u.id == id)

/-- repository.findOne({ where: { id } }) on stages. -/
def findStage (stages : List Stage) (id : Int) : Option Stage :=
  stages.find? (fun s => s.id == id)

/-- userStageRepository.findOne({ where: { userId, stageId } }). -/
def findUserStage (userStages : List UserStage) (userIdNum stageIdNum : Int) :
    Option UserStage :=
  userStages.find? (fun us => us.userId == userIdNum && us.stageId == stageIdNum)

/-- A fresh primary key for an insert: one more than the largest id in
the table (the autoincrement column, abstracted). -/
def maxAttemptRowId (attempts : List EvaluationAttempt) : Int :=
  attempts.foldr (fun a m => max a.id m) 0

/-- A fresh primary key for a feedback insert. -/
def maxFeedbackRowId (feedbacks : List FeedbackRow) : Int :=
  feedbacks.foldr (fun f m => max f.id m) 0

/-- The user_stages upsert performed by the handler (lines 810-849 of the
feedback router): create the row on first submission for the pair, with
isCompleted set by the 60-percent threshold; on an existing row, flip
isCompleted to true (stamping completedAt) only when the threshold is
reached and the row was not yet completed, and raise the stored score
only when the new score strictly exceeds it. -/
def updateUserStage (existing : Option UserStage) (userIdNum stageIdNum : Int)
    (score now : Int) : UserStage :=
  match existing with
  | none =>
      { userId := userIdNum
        stageId := stageIdNum
        isCompleted := score ≥ 60
        score := some score
        completedAt := if score ≥ 60 then some now else none }
  | some userStage =>
      let userStage :=
        if score ≥ 60 && !userStage.isCompleted then
          { userStage with isCompleted := true, completedAt := some now }
        else userStage
      if score > jsOrZero userStage.score then
        { userStage with score := some score }
      else userStage

/-- Save of the upserted user_stages row: replace the row of the pair if
present, insert otherwise. -/
def saveUserStageRow (userStages : List UserStage) (us : UserStage) : List UserStage :=
  if userStages.any (fun x => x.userId == us.userId && x.stageId == us.stageId) then
    userStages.map (fun x =>
      if x.userId == us.userId && x.stageId == us.stageId then us else x)
  else
    userStages ++ [us]

/-- `SELECT SUM(userStage.score) ... WHERE userId = :userId AND
isCompleted = true`, with the `totalScore?.total || 0` default: SQL SUM
ignores null scores and an empty result sums to 0, both of which the
model renders by adding jsOrZero of each score. -/
def sumCompletedScores (userStages : List UserStage) (userIdNum : Int) : Int :=
  ((userStages.filter (fun us => us.userId == userIdNum && us.isCompleted)).map
    (fun us => jsOrZero us.score)).sum

/-- The user-aggregate update (lines 859-890): set globalScore to the sum
of completed user_stages scores, and whenever the (post-upsert) progress
row is completed, point currentStageId at the active stage whose
displayOrder is one past the submitted stage, when such a stage exists. -/
def updateUserAggregate (currentUser : User) (userStages : List UserStage)
    (stages : List Stage) (stage : Stage) (userStage : UserStage) : User :=
  let u := { currentUser with globalScore := sumCompletedScores userStages currentUser.id }
  if userStage.isCompleted then
    match stages.find? (fun s => s.displayOrder == stage.displayOrder + 1 && s.isActive) with
    | some nextStage => { u with currentStageId := nextStage.id }
    | none => u
  else u

/-- userRepo.save(currentUser): replace the user row by id. -/
def saveUserRow (users : List User) (u : User) : List User :=
  users.map (fun x => if x.id == u.id then u else x)

/-- The pre-transaction validation of the handler, in source order: the
payload user id must strictly equal the authenticated id (NaN never
does), then both ids must be numbers strictly greater than zero.  The
falsy-value guards `!userId` and `!stageId` add nothing beyond the
numeric guards, since every falsy raw value converts to 0 or NaN. -/
def validateIds (req : SubmitRequest) (authUserId : Int) : Except Nat (Int × Int) :=
  match req.userId with
  | none => .error 403
  | some userIdNum =>
      if userIdNum != authUserId then .error 403
      else if userIdNum ≤ 0 then .error 400
      else
        match req.stageId with
        | none => .error 400
        | some stageIdNum =>
            if stageIdNum ≤ 0 then .error 400
            else .ok (userIdNum, stageIdNum)

/-- Lookup of one submitted answer in the question map built from the
fetched questions; none models both a NaN id and an id absent from the
map. -/
def lookupQuestion (questions : List Question) (r : SubmittedResponse) : Option Question :=
  r.questionId.bind (fun qid => questions.find? (fun q => q.id == qid))

/-- The response loop of the handler, threading the batch position for
the grading oracle and the save-failure oracle.  An answer whose question
is missing from the map is skipped (`if (!question) continue`); that
branch is unreachable after validation but kept faithful.  A save failure
aborts with the events emitted so far; success returns the saved rows,
the correct count and the emitted events. -/
def processResponses (questions : List Question) (rs : List SubmittedResponse)
    (or : SubmitOracle) (user : User) (attempt : EvaluationAttempt) (i : Nat) :
    Except (List Ev) (List UserResponseRow × Nat × List Ev) :=
  match rs with
  | [] => .ok ([], 0, [])
  | r :: rest =>
      match lookupQuestion questions r with
      | none => processResponses questions rest or user attempt (i + 1)
      | some question =>
          let isCorrect := gradeResponse question r.answer (or.aiEval i)
          if or.failSaveResponse i then .error []
          else
            let row : UserResponseRow :=
              { attemptRowId := attempt.id
                questionId := question.id
                userId := user.id
                response := r.answer
                isCorrect := isCorrect
                pointsEarned := pointsEarnedFor isCorrect question }
            match processResponses questions rest or user attempt (i + 1) with
            | .error evs => .error (Ev.saveResponse i :: evs)
            | .ok (rows, c, evs) =>
                .ok (row :: rows, (if jsTruthy isCorrect then 1 else 0) + c,
                  Ev.saveResponse i :: evs)

/-- The questions fetched for the submission: the questions table rows
whose id occurs among the submitted question ids (`WHERE id IN (...)`).
A NaN id (none) never matches a row; with the real driver a NaN
parameter would instead make the query itself throw, which like every
thrown error rolls the transaction back, so the observable outcomes
coincide up to the HTTP status code. -/
def questionsFor (db : DbState) (req : SubmitRequest) : List Question :=
  db.questions.filter (fun q =>
    (req.responses.map (fun r => r.questionId)).contains (some q.id))

/-- The attempt row created at the start of the transaction: start time
now minus the elapsed seconds, end time now, completed, score 0 until the
final score is written. -/
def newAttemptRow (db : DbState) (req : SubmitRequest) (or : SubmitOracle)
    (user : User) (stage : Stage) : EvaluationAttempt :=
  { id := maxAttemptRowId db.attempts + 1
    userId := user.id
    stageId := stage.id
    attemptId := req.attemptId
    startTime := or.now - req.timeSpent
    endTime := or.now
    timeSpentSeconds := req.timeSpent
    score := some 0
    isCompleted := true }

/-- The body of the transaction, from the repository lookups to the last
save before commitTransaction, in source order: user and stage lookups,
empty-question-pool check, question-id validation, attempt insert,
response loop, final score, feedback delegate call, feedback insert,
attempt score update, user_stages upsert, and the user-aggregate update.
An error carries the events emitted before the throw. -/
def runTransaction (db : DbState) (req : SubmitRequest) (or : SubmitOracle)
    (userIdNum stageIdNum : Int) :
    Except (List Ev × TxnError) (DbState × List Ev × Int) :=
  match findUser db.users userIdNum with
  | none => .error ([], .clientError 404)
  | some user =>
  match findStage db.stages stageIdNum with
  | none => .error ([], .clientError 404)
  | some stage =>
  if (db.questions.filter (fun q => q.stageId == stageIdNum)).isEmpty then
    .error ([], .clientError 400)
  else
  if (req.responses.map (fun r => r.questionId)).isEmpty ||
      (req.responses.map (fun r => r.questionId)).all
        (fun id => id == some 0 || id == none) then
    .error ([], .clientError 400)
  else
  if (questionsFor db req).isEmpty then
    .error ([], .clientError 400)
  else
  if req.responses.any (fun r =>
      r.questionId == some 0 || (lookupQuestion (questionsFor db req) r).isNone) then
    .error ([], .clientError 400)
  else
  let attempt := newAttemptRow db req or user stage
  if or.failSaveAttempt then .error ([], .serverError)
  else
  let db1 := { db with attempts := db.attempts ++ [attempt] }
  match processResponses (questionsFor db req) req.responses or user attempt 0 with
  | .error evs => .error (Ev.saveAttempt :: evs, .serverError)
  | .ok (rows, correctCount, respEvs) =>
  let db2 := { db1 with userResponses := db1.userResponses ++ rows }
  let score := finalScore correctCount req.responses.length
  match generateFeedback or.feedback with
  | .error _ =>
      .error (Ev.saveAttempt :: respEvs ++ [Ev.invokeFeedbackDelegate], .serverError)
  | .ok payload =>
  if or.failSaveFeedback then
    .error (Ev.saveAttempt :: respEvs ++ [Ev.invokeFeedbackDelegate], .serverError)
  else
  let feedbackId := maxFeedbackRowId db.feedbacks + 1
  let feedbackRow : FeedbackRow :=
    { id := feedbackId
      attemptRowId := attempt.id
      userId := user.id
      stageId := stage.id
      score := score
      totalQuestions := (req.responses.length : Int)
      correctAnswers := (correctCount : Int)
      payload := payload }
  let db3 := { db2 with feedbacks := db2.feedbacks ++ [feedbackRow] }
  if or.failSaveScore then
    .error (Ev.saveAttempt :: respEvs ++ [Ev.invokeFeedbackDelegate, Ev.saveFeedback],
      .serverError)
  else
  let db4 := { db3 with attempts := db3.attempts.map (fun (a : EvaluationAttempt) =>
    if a.id == attempt.id then { a with score := some score } else a) }
  let userStage :=
    updateUserStage (findUserStage db4.userStages userIdNum stageIdNum)
      userIdNum stageIdNum score or.now
  if or.failSaveUserStage then
    .error (Ev.saveAttempt :: respEvs ++
      [Ev.invokeFeedbackDelegate, Ev.saveFeedback, Ev.saveAttemptScore], .serverError)
  else
  let db5 := { db4 with userStages := saveUserStageRow db4.userStages userStage }
  match findUser db5.users userIdNum with
  | none =>
      .ok (db5, Ev.saveAttempt :: respEvs ++
        [Ev.invokeFeedbackDelegate, Ev.saveFeedback, Ev.saveAttemptScore,
          Ev.saveUserStage], feedbackId)
  | some currentUser =>
  let updatedUser := updateUserAggregate currentUser db5.userStages db.stages stage userStage
  if or.failSaveUser then
    .error (Ev.saveAttempt :: respEvs ++
      [Ev.invokeFeedbackDelegate, Ev.saveFeedback, Ev.saveAttemptScore,
        Ev.saveUserStage], .serverError)
  else
  let db6 := { db5 with users := saveUserRow db5.users updatedUser }
  .ok (db6, Ev.saveAttempt :: respEvs ++
    [Ev.invokeFeedbackDelegate, Ev.saveFeedback, Ev.saveAttemptScore,
      Ev.saveUserStage, Ev.saveUser], feedbackId)

/-- The whole POST /attempts handler.  Validation failures return before
startTransaction; afterwards any thrown error reaches the catch block,
which rolls the transaction back, leaving the persisted state untouched;
on success every write commits at once.  The result triple is the
persisted state after the request, the event trace, and the HTTP
outcome. -/
def submitAttempt (db : DbState) (req : SubmitRequest) (authUserId : Int)
    (or : SubmitOracle) : DbState × List Ev × SubmitResult :=
  match validateIds req authUserId with
  | .error status => (db, [], .clientError status)
  | .ok (userIdNum, stageIdNum) =>
      match runTransaction db req or userIdNum stageIdNum with
      | .error (evs, e) =>
          (db, Ev.beginTransaction :: evs ++ [Ev.rollbackTransaction], e.toResult)
      | .ok (db6, evs, feedbackId) =>
          (db6, Ev.beginTransaction :: evs ++ [Ev.commitTransaction],
            .created feedbackId req.attemptId)

/-- The state the transaction commits on the success path, assembled
from the attempt row, the graded response rows, the feedback row, the
score finalization, the user_stages upsert and the user-aggregate
update.  The inversion lemma below proves that a submission that returns
201 leaves the database in exactly this state. -/
def committedState (db : DbState) (req : SubmitRequest) (or : SubmitOracle)
    (userIdNum stageIdNum : Int) (user : User) (stage : Stage)
    (rows : List UserResponseRow) (correctCount : Nat) (payload : FeedbackPayload) :
    DbState :=
  let attempt := newAttemptRow db req or user stage
  let score := finalScore correctCount req.responses.length
  let feedbackRow : FeedbackRow :=
    { id := maxFeedbackRowId db.feedbacks + 1
      attemptRowId := attempt.id
      userId := user.id
      stageId := stage.id
      score := score
      totalQuestions := (req.responses.length : Int)
      correctAnswers := (correctCount : Int)
      payload := payload }
  let userStage :=
    updateUserStage (findUserStage db.userStages userIdNum stageIdNum)
      userIdNum stageIdNum score or.now
  let newUserStages := saveUserStageRow db.userStages userStage
  let updatedUser := updateUserAggregate user newUserStages db.stages stage userStage
  { users := saveUserRow db.users updatedUser
    stages := db.stages
    questions := db.questions
    userStages := newUserStages
    attempts := (db.attempts ++ [attempt]).map (fun (a : EvaluationAttempt) =>
      if a.id == attempt.id then { a with score := some score } else a)
    userResponses := db.userResponses ++ rows
    feedbacks := db.feedbacks ++ [feedbackRow] }

/-- Proof device: the control-flow shape of the response loop (its error
or its emitted events), with the graded data dropped; used to state that
grading outcomes never change the control flow. -/
def respShape : Except (List Ev) (List UserResponseRow × Nat × List Ev) →
    Except (List Ev) (List Ev)
  | .error e => .error e
  | .ok (_, _, evs) => .ok evs

/-- Proof device: the control-flow shape of the transaction body (error,
or events plus created feedback id), with the database state dropped. -/
def txnShape : Except (List Ev × TxnError) (DbState × List Ev × Int) →
    Except (List Ev × TxnError) (List Ev × Int)
  | .error e => .error e
  | .ok (_, evs, fid) => .ok (evs, fid)

/-- Fixtures shared by the concrete runs below: a single user, two active
stages in sequence, and one two-option multiple-choice question whose
correct answer is the second option. -/
def exUser : User := { id := 1, globalScore := 0, currentStageId := 7 }

def exStageA : Stage := { id := 1, title := "A", isActive := true, displayOrder := 1 }

def exStageB : Stage := { id := 2, title := "B", isActive := true, displayOrder := 2 }

def exQuestion : Question :=
  { id := 10, stageId := 1, type := "multiple-choice", questionText := "q"
    options := some ["x", "y"], correctAnswer := some "y", points := 1
    category := none, difficulty := none }

def exDb : DbState :=
  { users := [exUser], stages := [exStageA, exStageB], questions := [exQuestion]
    userStages := [], attempts := [], userResponses := [], feedbacks := [] }

/-- A request answering the one question with the correct option index. -/
def exReq : SubmitRequest :=
  { attemptId := "att-1", userId := some 1, stageId := some 1
    responses := [{ questionId := some 10, answer := "1" }], timeSpent := 5 }

/-- An oracle where every delegate call and save succeeds (the feedback
delegate reply is unparsable, which generateFeedback absorbs). -/
def exOracle : SubmitOracle :=
  { now := 100, aiEval := fun _ => .parsed (some true), feedback := .parseFailure
    failSaveAttempt := false, failSaveResponse := fun _ => false
    failSaveFeedback := false, failSaveScore := false
    failSaveUserStage := false, failSaveUser := false }

/-- The database where stage 1 was already completed at score 80 by an
earlier submission. -/
def exDbCompleted : DbState :=
  { exDb with
    userStages := [{ userId := 1
                     stageId := 1
                     isCompleted := true
                     score := some 80
                     completedAt := some 50 }] }

/-- A resubmission for the already-completed stage that answers the one
question with the wrong option index, scoring 0. -/
def exReqWrong : SubmitRequest :=
  { exReq with responses := [{ questionId := some 10, answer := "0" }] }

/-- A request whose 40 responses answer the one question 23 times with
the correct option index and 17 times with a wrong one (duplicate
question ids pass validation), so the exact percentage is 57.5 — an
exact rounding tie. -/
def exReq40 : SubmitRequest :=
  { attemptId := "att-40", userId := some 1, stageId := some 1
    responses := List.replicate 23 { questionId := some 10, answer := "1" }
      ++ List.replicate 17 { questionId := some 10, answer := "0" }
    timeSpent := 5 }

/-! ## Helper lemmas -/

theorem toResult_ne_created (e : TxnError) (fid : Int) (aid : String) :
    e.toResult ≠ .created fid aid := by
  cases e <;> simp [TxnError.toResult]

/-- Inversion of the transaction body on its success path: a committed
run fixes the user and stage lookups, a successful response loop, a
non-throwing feedback delegate call, the feedback row id, the event
order, and the final state. -/
theorem runTransaction_ok_inv {db : DbState} {req : SubmitRequest} {or : SubmitOracle}
    {userIdNum stageIdNum : Int} {st : DbState} {evs : List Ev} {fid : Int}
    (h : runTransaction db req or userIdNum stageIdNum = .ok (st, evs, fid)) :
    ∃ user stage rows correctCount revs payload,
      findUser db.users userIdNum = some user ∧
      findStage db.stages stageIdNum = some stage ∧
      processResponses (questionsFor db req) req.responses or user
        (newAttemptRow db req or user stage) 0 = .ok (rows, correctCount, revs) ∧
      generateFeedback or.feedback = .ok payload ∧
      (or.failSaveAttempt = false ∧ or.failSaveFeedback = false ∧
        or.failSaveScore = false ∧ or.failSaveUserStage = false ∧
        or.failSaveUser = false) ∧
      fid = maxFeedbackRowId db.feedbacks + 1 ∧
      evs = Ev.saveAttempt :: revs ++
        [Ev.invokeFeedbackDelegate, Ev.saveFeedback, Ev.saveAttemptScore,
          Ev.saveUserStage, Ev.saveUser] ∧
      st = committedState db req or userIdNum stageIdNum user stage rows correctCount
        payload := by
  unfold runTransaction at h
  rcases hu : findUser db.users userIdNum with _ | user
  · rw [hu] at h; exact Except.noConfusion h
  simp only [hu] at h
  rcases hs : findStage db.stages stageIdNum with _ | stage
  · rw [hs] at h; exact Except.noConfusion h
  simp only [hs] at h
  by_cases h1 : (List.filter (fun q => q.stageId == stageIdNum) db.questions).isEmpty = true
  · rw [if_pos h1] at h; exact Except.noConfusion h
  rw [if_neg h1] at h
  by_cases h2 : ((List.map (fun r => r.questionId) req.responses).isEmpty ||
      (List.map (fun r => r.questionId) req.responses).all
        (fun id => id == some 0 || id == none)) = true
  · rw [if_pos h2] at h; exact Except.noConfusion h
  rw [if_neg h2] at h
  by_cases h3 : (questionsFor db req).isEmpty = true
  · rw [if_pos h3] at h; exact Except.noConfusion h
  rw [if_neg h3] at h
  by_cases h4 : (req.responses.any fun r =>
      r.questionId == some 0 || (lookupQuestion (questionsFor db req) r).isNone) = true
  · rw [if_pos h4] at h; exact Except.noConfusion h
  rw [if_neg h4] at h
  by_cases h5 : or.failSaveAttempt = true
  · rw [if_pos h5] at h; exact Except.noConfusion h
  rw [if_neg h5] at h
  rcases hp : processResponses (questionsFor db req) req.responses or user
      (newAttemptRow db req or user stage) 0 with evs2 | t
  · rw [hp] at h; exact Except.noConfusion h
  obtain ⟨rows, correctCount, respEvs⟩ := t
  simp only [hp] at h
  rcases hg : generateFeedback or.feedback with e2 | payload
  · rw [hg] at h; exact Except.noConfusion h
  simp only [hg] at h
  by_cases h6 : or.failSaveFeedback = true
  · rw [if_pos h6] at h; exact Except.noConfusion h
  rw [if_neg h6] at h
  by_cases h7 : or.failSaveScore = true
  · rw [if_pos h7] at h; exact Except.noConfusion h
  rw [if_neg h7] at h
  by_cases h8 : or.failSaveUserStage = true
  · rw [if_pos h8] at h; exact Except.noConfusion h
  rw [if_neg h8] at h
  by_cases h9 : or.failSaveUser = true
  · rw [if_pos h9] at h; exact Except.noConfusion h
  rw [if_neg h9] at h
  injection h with h
  simp only [Prod.mk.injEq] at h
  obtain ⟨hst, hevs, hfid⟩ := h
  exact ⟨user, stage, rows, correctCount, respEvs, payload, rfl, rfl, hp, rfl,
    ⟨by simpa using h5, by simpa using h6, by simpa using h7, by simpa using h8,
      by simpa using h9⟩,
    hfid.symm, hevs.symm, hst.symm.trans rfl⟩

/-- Inversion of the whole handler on its 201 path. -/
theorem submitAttempt_created_inv {db : DbState} {req : SubmitRequest}
    {authUserId : Int} {or : SubmitOracle} {st : DbState} {tr : List Ev}
    {fid : Int} {aid : String}
    (h : submitAttempt db req authUserId or = (st, tr, .created fid aid)) :
    ∃ userIdNum stageIdNum user stage rows correctCount revs payload,
      validateIds req authUserId = .ok (userIdNum, stageIdNum) ∧
      findUser db.users userIdNum = some user ∧
      findStage db.stages stageIdNum = some stage ∧
      processResponses (questionsFor db req) req.responses or user
        (newAttemptRow db req or user stage) 0 = .ok (rows, correctCount, revs) ∧
      generateFeedback or.feedback = .ok payload ∧
      (or.failSaveAttempt = false ∧ or.failSaveFeedback = false ∧
        or.failSaveScore = false ∧ or.failSaveUserStage = false ∧
        or.failSaveUser = false) ∧
      fid = maxFeedbackRowId db.feedbacks + 1 ∧
      aid = req.attemptId ∧
      tr = Ev.beginTransaction :: (Ev.saveAttempt :: revs ++
        [Ev.invokeFeedbackDelegate, Ev.saveFeedback, Ev.saveAttemptScore,
          Ev.saveUserStage, Ev.saveUser]) ++ [Ev.commitTransaction] ∧
      st = committedState db req or userIdNum stageIdNum user stage rows correctCount
        payload := by
  unfold submitAttempt at h
  rcases hv : validateIds req authUserId with e | p
  · rw [hv] at h
    simp only [Prod.mk.injEq] at h
    exact absurd h.2.2 (by simp)
  obtain ⟨userIdNum, stageIdNum⟩ := p
  simp only [hv] at h
  rcases hr : runTransaction db req or userIdNum stageIdNum with pe | t
  · obtain ⟨evs, e⟩ := pe
    rw [hr] at h
    simp only [Prod.mk.injEq] at h
    exact absurd h.2.2 (toResult_ne_created e fid aid)
  obtain ⟨db6, evs2, fid2⟩ := t
  simp only [hr, Prod.mk.injEq, SubmitResult.created.injEq] at h
  obtain ⟨hst, htr, hfid, haid⟩ := h
  obtain ⟨user, stage, rows, c, revs, payload, hu, hs, hp, hg, hflags, hfid2, hevs,
    hstate⟩ := runTransaction_ok_inv hr
  exact ⟨userIdNum, stageIdNum, user, stage, rows, c, revs, payload, rfl, hu, hs, hp, hg,
    hflags, hfid ▸ hfid2, haid.symm, by rw [← htr, hevs], hst ▸ hstate⟩

/-- Any outcome other than 201 leaves the persisted state untouched: the
validation failures return before the transaction starts, and every
thrown error is rolled back. -/
theorem submitAttempt_not_created_state (db : DbState) (req : SubmitRequest)
    (authUserId : Int) (or : SubmitOracle)
    (hne : ∀ fid aid, (submitAttempt db req authUserId or).2.2 ≠ .created fid aid) :
    (submitAttempt db req authUserId or).1 = db := by
  unfold submitAttempt
  rcases hv : validateIds req authUserId with e | p
  · simp only [hv]
  obtain ⟨userIdNum, stageIdNum⟩ := p
  simp only [hv]
  rcases hr : runTransaction db req or userIdNum stageIdNum with pe | t
  · obtain ⟨evs, e⟩ := pe
    simp only [hr]
  obtain ⟨db6, evs2, fid2⟩ := t
  exfalso
  exact hne fid2 req.attemptId (by simp [submitAttempt, hv, hr])

theorem updateUserStage_score_mono (us : UserStage) (uid sid s now : Int) :
    jsOrZero us.score ≤ jsOrZero ((updateUserStage (some us) uid sid s now).score) := by
  simp only [updateUserStage]
  split_ifs <;> simp_all [jsOrZero] <;> omega

theorem updateUserStage_isCompleted_eq (us : UserStage) (uid sid s now : Int) :
    (updateUserStage (some us) uid sid s now).isCompleted
      = (us.isCompleted || decide (s ≥ 60)) := by
  simp only [updateUserStage]
  split_ifs with h1 h2 h3 <;> simp_all

theorem foldl_updateUserStage_score_mono (uid sid now : Int) (scores : List Int) :
    ∀ us : UserStage,
      jsOrZero us.score ≤
        jsOrZero ((scores.foldl (fun acc s => updateUserStage (some acc) uid sid s now) us).score) := by
  induction scores with
  | nil => intro us; simp
  | cons s rest ih =>
      intro us
      calc jsOrZero us.score
          ≤ jsOrZero ((updateUserStage (some us) uid sid s now).score) :=
            updateUserStage_score_mono us uid sid s now
        _ ≤ _ := ih (updateUserStage (some us) uid sid s now)

theorem foldl_updateUserStage_isCompleted_mono (uid sid now : Int) (scores : List Int) :
    ∀ us : UserStage, us.isCompleted = true →
      (scores.foldl (fun acc s => updateUserStage (some acc) uid sid s now) us).isCompleted
        = true := by
  induction scores with
  | nil => intro us h; simpa using h
  | cons s rest ih =>
      intro us h
      exact ih _ (by rw [updateUserStage_isCompleted_eq, h, Bool.true_or])

/-! ## Claim theorems -/


/-- C4 counterexample: the evaluator special-cases the literal sequence
number 1, not the minimum of the catalog.  In a catalog holding active
stages with sequence numbers 0 and 1 (distinct, so the catalog is
well-formed), stage B with sequence number 1 is not the minimum and its
predecessor (sequence number 0) is present and not completed, so the
claim says B is locked; the code unlocks it unconditionally. -/
theorem stage_unlock_counterexample :
    ({ id := 2, title := "B", isActive := true, displayOrder := 1 } : Stage) ∈
      [({ id := 1, title := "A", isActive := true, displayOrder := 0 } : Stage),
        { id := 2, title := "B", isActive := true, displayOrder := 1 }] ∧
    (([({ id := 1, title := "A", isActive := true, displayOrder := 0 } : Stage),
        { id := 2, title := "B", isActive := true, displayOrder := 1 }]).map
      (fun s => s.displayOrder)).Nodup ∧
    isStageUnlocked { id := 2, title := "B", isActive := true, displayOrder := 1 }
      [{ id := 1, title := "A", isActive := true, displayOrder := 0 },
        { id := 2, title := "B", isActive := true, displayOrder := 1 }] [] = true ∧
    unlockedPerSpec { id := 2, title := "B", isActive := true, displayOrder := 1 }
      [{ id := 1, title := "A", isActive := true, displayOrder := 0 },
        { id := 2, title := "B", isActive := true, displayOrder := 1 }] [] = false := by
  decide

/-- C4 amended: a stage whose sequence number is the literal 1 is always
unlocked regardless of progress; the stage with the minimum sequence
number is always unlocked; a stage whose predecessor (sequence number
exactly one less) is absent from the catalog is unlocked; and any other
stage with sequence number different from 1 is unlocked iff the
predecessor found in the catalog has a completed progress record. -/
theorem stage_unlock_policy (stage : Stage) (stages : List Stage)
    (userStages : List UserStage) :
    (stage.displayOrder = 1 → isStageUnlocked stage stages userStages = true)
  ∧ ((∀ s ∈ stages, stage.displayOrder ≤ s.displayOrder) →
      isStageUnlocked stage stages userStages = true)
  ∧ (stages.find? (fun s => s.displayOrder == stage.displayOrder - 1) = none →
      isStageUnlocked stage stages userStages = true)
  ∧ (∀ previousStage, stage.displayOrder ≠ 1 →
      stages.find? (fun s => s.displayOrder == stage.displayOrder - 1) = some previousStage →
      (isStageUnlocked stage stages userStages = true ↔
        ∃ us, userStages.find? (fun x => x.stageId == previousStage.id) = some us ∧
          us.isCompleted = true)) := by
  refine ⟨?_, ?_, ?_, ?_⟩
  · intro h1
    simp [isStageUnlocked, h1]
  · intro hmin
    unfold isStageUnlocked
    by_cases h1 : stage.displayOrder = 1
    · simp [h1]
    · have hfind : stages.find? (fun s => s.displayOrder == stage.displayOrder - 1) = none := by
        rw [List.find?_eq_none]
        intro s hs
        have := hmin s hs
        simp only [beq_iff_eq]
        omega
      simp [h1, hfind]
  · intro hfind
    unfold isStageUnlocked
    by_cases h1 : stage.displayOrder = 1
    · simp [h1]
    · simp [h1, hfind]
  · intro previousStage h1 hfind
    unfold isStageUnlocked
    simp only [beq_iff_eq, h1, if_false, hfind]
    cases hus : userStages.find? (fun x => x.stageId == previousStage.id) with
    | none => simp [jsTruthy]
    | some us =>
        simp only [Option.map_some, jsTruthy]
        constructor
        · intro h; exact ⟨us, rfl, h⟩
        · rintro ⟨us2, h2, h3⟩
          injection h2 with h2
          subst h2
          exact h3

/-- C4 witness: in the two-stage catalog 1,2 with stage 1 completed,
stage 2 is unlocked via the predecessor clause. -/
theorem stage_unlock_policy_witness :
    isStageUnlocked { id := 2, title := "B", isActive := true, displayOrder := 2 }
      [{ id := 1, title := "A", isActive := true, displayOrder := 1 },
        { id := 2, title := "B", isActive := true, displayOrder := 2 }]
      [{ userId := 1, stageId := 1, isCompleted := true, score := some 80,
          completedAt := some 5 }] = true := by
  have h := (stage_unlock_policy
    { id := 2, title := "B", isActive := true, displayOrder := 2 }
    [{ id := 1, title := "A", isActive := true, displayOrder := 1 },
      { id := 2, title := "B", isActive := true, displayOrder := 2 }]
    [{ userId := 1, stageId := 1, isCompleted := true, score := some 80,
        completedAt := some 5 }]).2.2.2
    { id := 1, title := "A", isActive := true, displayOrder := 1 }
    (by decide) (by decide)
  exact h.mpr ⟨_, rfl, rfl⟩

theorem jsStrictEq_eq_true_iff (a b : Option String) :
    jsStrictEq a b = true ↔ ∃ s, a = some s ∧ b = some s := by
  cases a with
  | none => simp [jsStrictEq]
  | some x =>
      cases b with
      | none => simp [jsStrictEq]
      | some y =>
          simp only [jsStrictEq, beq_iff_eq, Option.some.injEq]
          constructor
          · intro h; exact ⟨y, h, rfl⟩
          · rintro ⟨s, h1, h2⟩; rw [h1, h2]

theorem jsIndexGet_eq_some_iff (options : Option (List String)) (i : Option Int) (v : String) :
    jsIndexGet options i = some v ↔
      ∃ l j, options = some l ∧ i = some j ∧ 0 ≤ j ∧ l.get? j.toNat = some v := by
  cases options with
  | none => simp [jsIndexGet]
  | some l =>
      cases i with
      | none => simp [jsIndexGet]
      | some j =>
          by_cases h : j < 0
          · simp only [jsIndexGet, if_pos h]
            simp only [Option.some.injEq]
            constructor
            · intro hfalse; cases hfalse
            · rintro ⟨l2, j2, h1, h2, h3, h4⟩
              omega
          · simp only [jsIndexGet, if_neg h, Option.some.injEq]
            constructor
            · intro hg; exact ⟨l, j, rfl, rfl, by omega, hg⟩
            · rintro ⟨l2, j2, h1, h2, h3, h4⟩
              subst h1; subst h2
              exact h4

theorem mcIsCorrect_eq_true_iff (q : Question) (answer : String) :
    mcIsCorrect q answer = true ↔
      ∃ opts idx opt, q.options = some opts ∧ jsParseInt answer = some idx ∧ 0 ≤ idx ∧
        opts.get? idx.toNat = some opt ∧ q.correctAnswer = some opt := by
  unfold mcIsCorrect
  rw [jsStrictEq_eq_true_iff]
  constructor
  · rintro ⟨s, hca, hget⟩
    rcases (jsIndexGet_eq_some_iff _ _ _).mp hget with ⟨l, j, hop, hpi, hj, hg⟩
    exact ⟨l, j, s, hop, hpi, hj, hg, hca⟩
  · rintro ⟨opts, idx, opt, hop, hpi, hj, hg, hca⟩
    exact ⟨opt, hca, (jsIndexGet_eq_some_iff _ _ _).mpr ⟨opts, idx, hop, hpi, hj, hg⟩⟩

theorem mcIsCorrect_out_of_range (q : Question) (answer : String) (opts : List String)
    (idx : Int) (hop : q.options = some opts) (hpi : jsParseInt answer = some idx)
    (hlen : opts.length ≤ idx.toNat) : mcIsCorrect q answer = false := by
  cases h : mcIsCorrect q answer
  · rfl
  · exfalso
    rcases (mcIsCorrect_eq_true_iff q answer).mp h with
      ⟨opts2, idx2, opt, hop2, hpi2, hj, hg, hca⟩
    rw [hop] at hop2
    injection hop2 with e1
    subst e1
    rw [hpi] at hpi2
    injection hpi2 with e2
    subst e2
    rw [List.get?_eq_none.mpr hlen] at hg
    cases hg

/-- C5: for a multiple-choice question the handler grades synchronously
(the delegate outcome is ignored), the answer is correct exactly when the
option at the parsed nonnegative index exists and equals the stored
correct-answer text, an index at or past the end of the option list is
never correct, and the earned points are the full question weight when
correct and 0 otherwise. -/
theorem mc_grading_characterization (q : Question) (answer : String)
    (outcome : OpenEvalOutcome) (htype : q.type = "multiple-choice") :
    gradeResponse q answer outcome = some (mcIsCorrect q answer)
  ∧ (mcIsCorrect q answer = true ↔
      ∃ opts idx opt, q.options = some opts ∧ jsParseInt answer = some idx ∧ 0 ≤ idx ∧
        opts.get? idx.toNat = some opt ∧ q.correctAnswer = some opt)
  ∧ (∀ opts idx, q.options = some opts → jsParseInt answer = some idx →
      opts.length ≤ idx.toNat → mcIsCorrect q answer = false)
  ∧ pointsEarnedFor (some (mcIsCorrect q answer)) q
      = if mcIsCorrect q answer = true then q.points else 0 := by
  refine ⟨by simp [gradeResponse, htype], mcIsCorrect_eq_true_iff q answer,
    fun opts idx hop hpi hlen => mcIsCorrect_out_of_range q answer opts idx hop hpi hlen, ?_⟩
  cases h : mcIsCorrect q answer <;> simp [pointsEarnedFor, jsTruthy, h]

/-- C5 witness: answer index 1 resolves to the option y, which matches
the stored correct answer. -/
theorem mc_grading_witness :
    gradeResponse exQuestion "1" OpenEvalOutcome.transportError
      = some (mcIsCorrect exQuestion "1") ∧
    mcIsCorrect exQuestion "1" = true :=
  ⟨(mc_grading_characterization exQuestion "1" OpenEvalOutcome.transportError rfl).1,
    by decide⟩

/-- C10: multiple-choice grading is total over arbitrary raw answers: a
null correct answer, a null option list, a non-numeric answer, a negative
index and an out-of-range index each grade incorrect (and incorrect means
zero points); no case raises an error, since every lookup is
optional-chained and strict equality never matches a missing operand. -/
theorem mc_grading_total (q : Question) (answer : String) :
    (q.correctAnswer = none → mcIsCorrect q answer = false)
  ∧ (q.options = none → mcIsCorrect q answer = false)
  ∧ (jsParseInt answer = none → mcIsCorrect q answer = false)
  ∧ (∀ idx, jsParseInt answer = some idx → idx < 0 → mcIsCorrect q answer = false)
  ∧ (∀ opts idx, q.options = some opts → jsParseInt answer = some idx →
      opts.length ≤ idx.toNat → mcIsCorrect q answer = false)
  ∧ (mcIsCorrect q answer = false → pointsEarnedFor (some (mcIsCorrect q answer)) q = 0) := by
  refine ⟨?_, ?_, ?_, ?_,
    fun opts idx hop hpi hlen => mcIsCorrect_out_of_range q answer opts idx hop hpi hlen, ?_⟩
  · intro hca
    cases h : mcIsCorrect q answer
    · rfl
    · exfalso
      rcases (mcIsCorrect_eq_true_iff q answer).mp h with ⟨_, _, _, _, _, _, _, hca2⟩
      rw [hca] at hca2
      cases hca2
  · intro hop
    cases h : mcIsCorrect q answer
    · rfl
    · exfalso
      rcases (mcIsCorrect_eq_true_iff q answer).mp h with ⟨_, _, _, hop2, _, _, _, _⟩
      rw [hop] at hop2
      cases hop2
  · intro hpi
    cases h : mcIsCorrect q answer
    · rfl
    · exfalso
      rcases (mcIsCorrect_eq_true_iff q answer).mp h with ⟨_, _, _, _, hpi2, _, _, _⟩
      rw [hpi] at hpi2
      cases hpi2
  · intro idx hpi hneg
    cases h : mcIsCorrect q answer
    · rfl
    · exfalso
      rcases (mcIsCorrect_eq_true_iff q answer).mp h with ⟨_, idx2, _, _, hpi2, hj, _, _⟩
      rw [hpi] at hpi2
      injection hpi2 with e
      omega
  · intro h
    simp [pointsEarnedFor, jsTruthy, h]

/-- C10 witness: a non-numeric answer against a question with null
options and null correct answer grades incorrect with zero points. -/
theorem mc_grading_total_witness :
    mcIsCorrect { exQuestion with options := none, correctAnswer := none } "zzz" = false := by
  exact (mc_grading_total { exQuestion with options := none, correctAnswer := none } "zzz").1
    rfl


theorem findUser_ids {l : List User} {uid : Int} {u : User}
    (h : findUser l uid = some u) : u ∈ l ∧ u.id = uid := by
  have h2 : l.find? (fun x => x.id == uid) = some u := h
  refine ⟨List.mem_of_find?_eq_some h2, ?_⟩
  have := List.find?_some h2
  simpa using this

theorem findUserStage_ids {l : List UserStage} {uid sid : Int} {x : UserStage}
    (h : findUserStage l uid sid = some x) : x.userId = uid ∧ x.stageId = sid := by
  have h2 : l.find? (fun us => us.userId == uid && us.stageId == sid) = some x := h
  have := List.find?_some h2
  simpa using this

theorem updateUserStage_ids (l : List UserStage) (uid sid s now : Int) :
    (updateUserStage (findUserStage l uid sid) uid sid s now).userId = uid ∧
    (updateUserStage (findUserStage l uid sid) uid sid s now).stageId = sid := by
  rcases hf : findUserStage l uid sid with _ | us
  · simp [updateUserStage]
  · obtain ⟨h1, h2⟩ := findUserStage_ids hf
    simp only [updateUserStage]
    split_ifs <;> simp_all

theorem find?_map_replace (us : UserStage) :
    ∀ l : List UserStage,
      l.any (fun x => x.userId == us.userId && x.stageId == us.stageId) = true →
      (l.map (fun x =>
        if x.userId == us.userId && x.stageId == us.stageId then us else x)).find?
          (fun x => x.userId == us.userId && x.stageId == us.stageId) = some us := by
  intro l
  induction l with
  | nil => intro h; simp at h
  | cons x xs ih =>
      intro h
      simp only [List.map_cons]
      by_cases hx : (x.userId == us.userId && x.stageId == us.stageId) = true
      · rw [if_pos hx]
        simp [List.find?_cons]
      · rw [if_neg hx]
        have hxs : xs.any (fun x => x.userId == us.userId && x.stageId == us.stageId) = true := by
          simp only [List.any_cons, Bool.or_eq_true] at h
          rcases h with h | h
          · exact absurd h hx
          · exact h
        have hx2 : (x.userId == us.userId && x.stageId == us.stageId) = false := by
          simpa using hx
        simp only [List.find?_cons, hx2]
        exact ih hxs

theorem find?_append_fresh (us : UserStage) :
    ∀ l : List UserStage,
      ¬ l.any (fun x => x.userId == us.userId && x.stageId == us.stageId) = true →
      (l ++ [us]).find? (fun x => x.userId == us.userId && x.stageId == us.stageId)
        = some us := by
  intro l
  induction l with
  | nil =>
      intro _
      simp only [List.nil_append]
      simp [List.find?_cons]
  | cons x xs ih =>
      intro h
      have hx : (x.userId == us.userId && x.stageId == us.stageId) = false := by
        have : ¬ (x.userId == us.userId && x.stageId == us.stageId) = true := by
          intro hc
          exact h (by simp [List.any_cons, hc])
        simpa using this
      have hxs : ¬ xs.any (fun x => x.userId == us.userId && x.stageId == us.stageId) = true := by
        intro hc
        exact h (by simp [List.any_cons, hc])
      simp only [List.cons_append]
      simp only [List.find?_cons, hx]
      exact ih hxs

theorem findUserStage_save (l : List UserStage) (us : UserStage) :
    findUserStage (saveUserStageRow l us) us.userId us.stageId = some us := by
  unfold saveUserStageRow findUserStage
  by_cases h : l.any (fun x => x.userId == us.userId && x.stageId == us.stageId) = true
  · rw [if_pos h]
    exact find?_map_replace us l h
  · rw [if_neg h]
    exact find?_append_fresh us l h

theorem updateUserAggregate_id (u : User) (uss : List UserStage) (stages : List Stage)
    (stage : Stage) (us : UserStage) :
    (updateUserAggregate u uss stages stage us).id = u.id := by
  unfold updateUserAggregate
  by_cases h : us.isCompleted = true
  · rw [if_pos h]
    cases stages.find? (fun s => s.displayOrder == stage.displayOrder + 1 && s.isActive) <;> rfl
  · rw [if_neg h]

theorem updateUserAggregate_globalScore (u : User) (uss : List UserStage)
    (stages : List Stage) (stage : Stage) (us : UserStage) :
    (updateUserAggregate u uss stages stage us).globalScore = sumCompletedScores uss u.id := by
  unfold updateUserAggregate
  by_cases h : us.isCompleted = true
  · rw [if_pos h]
    cases stages.find? (fun s => s.displayOrder == stage.displayOrder + 1 && s.isActive) <;> rfl
  · rw [if_neg h]

theorem updateUserAggregate_currentStageId (u : User) (uss : List UserStage)
    (stages : List Stage) (stage : Stage) (us : UserStage) :
    (us.isCompleted = true →
      (match stages.find? (fun s => s.displayOrder == stage.displayOrder + 1 && s.isActive) with
        | some nextStage => (updateUserAggregate u uss stages stage us).currentStageId = nextStage.id
        | none => (updateUserAggregate u uss stages stage us).currentStageId = u.currentStageId))
  ∧ (us.isCompleted = false →
      (updateUserAggregate u uss stages stage us).currentStageId = u.currentStageId) := by
  constructor
  · intro h
    unfold updateUserAggregate
    rw [if_pos h]
    cases stages.find? (fun s => s.displayOrder == stage.displayOrder + 1 && s.isActive) <;> rfl
  · intro h
    unfold updateUserAggregate
    rw [if_neg (by simp [h])]

theorem saveUserRow_mem {l : List User} {x : User} (hx : x ∈ l) (u : User)
    (h : x.id = u.id) : u ∈ saveUserRow l u := by
  unfold saveUserRow
  exact List.mem_map.mpr ⟨x, hx, by simp [h]⟩

theorem committedState_attempt_mem (db : DbState) (req : SubmitRequest) (or : SubmitOracle)
    (uid sid : Int) (user : User) (stage : Stage) (rows : List UserResponseRow)
    (c : Nat) (payload : FeedbackPayload) :
    ∃ a ∈ (committedState db req or uid sid user stage rows c payload).attempts,
      a.attemptId = req.attemptId ∧
      a.score = some (finalScore c req.responses.length) ∧
      a.isCompleted = true := by
  refine ⟨{ newAttemptRow db req or user stage with
      score := some (finalScore c req.responses.length) }, ?_, by simp [newAttemptRow], rfl,
      by simp [newAttemptRow]⟩
  show _ ∈ ((db.attempts ++ [newAttemptRow db req or user stage]).map
    (fun (a : EvaluationAttempt) =>
      if a.id == (newAttemptRow db req or user stage).id then
        { a with score := some (finalScore c req.responses.length) } else a))
  apply List.mem_map.mpr
  exact ⟨newAttemptRow db req or user stage, by simp, by simp⟩

theorem committedState_feedback_mem (db : DbState) (req : SubmitRequest) (or : SubmitOracle)
    (uid sid : Int) (user : User) (stage : Stage) (rows : List UserResponseRow)
    (c : Nat) (payload : FeedbackPayload) :
    ∃ fr ∈ (committedState db req or uid sid user stage rows c payload).feedbacks,
      fr.id = maxFeedbackRowId db.feedbacks + 1 ∧ fr.payload = payload ∧
      fr.score = finalScore c req.responses.length ∧
      fr.correctAnswers = (c : Int) ∧ fr.totalQuestions = (req.responses.length : Int) := by
  refine ⟨{ id := maxFeedbackRowId db.feedbacks + 1
            attemptRowId := (newAttemptRow db req or user stage).id
            userId := user.id
            stageId := stage.id
            score := finalScore c req.responses.length
            totalQuestions := (req.responses.length : Int)
            correctAnswers := (c : Int)
            payload := payload }, ?_, rfl, rfl, rfl, rfl, rfl⟩
  exact List.mem_append_right db.feedbacks (by simp)

theorem committedState_userStage (db : DbState) (req : SubmitRequest) (or : SubmitOracle)
    (uid sid : Int) (user : User) (stage : Stage) (rows : List UserResponseRow)
    (c : Nat) (payload : FeedbackPayload) :
    findUserStage (committedState db req or uid sid user stage rows c payload).userStages
        uid sid
      = some (updateUserStage (findUserStage db.userStages uid sid) uid sid
          (finalScore c req.responses.length) or.now) := by
  have hids := updateUserStage_ids db.userStages uid sid
    (finalScore c req.responses.length) or.now
  have hsave := findUserStage_save db.userStages
    (updateUserStage (findUserStage db.userStages uid sid) uid sid
      (finalScore c req.responses.length) or.now)
  rw [hids.1, hids.2] at hsave
  exact hsave

theorem committedState_user_mem (db : DbState) (req : SubmitRequest) (or : SubmitOracle)
    (uid sid : Int) (user : User) (stage : Stage) (rows : List UserResponseRow)
    (c : Nat) (payload : FeedbackPayload)
    (huser : findUser db.users uid = some user) :
    ∃ u ∈ (committedState db req or uid sid user stage rows c payload).users,
      u.id = uid ∧
      u.globalScore = sumCompletedScores
        (committedState db req or uid sid user stage rows c payload).userStages uid ∧
      u = updateUserAggregate user
        (saveUserStageRow db.userStages
          (updateUserStage (findUserStage db.userStages uid sid) uid sid
            (finalScore c req.responses.length) or.now))
        db.stages stage
        (updateUserStage (findUserStage db.userStages uid sid) uid sid
          (finalScore c req.responses.length) or.now) := by
  obtain ⟨hmem, hid⟩ := findUser_ids huser
  refine ⟨_, ?_, ?_, ?_, rfl⟩
  · show _ ∈ saveUserRow db.users _
    exact saveUserRow_mem hmem _ (updateUserAggregate_id user _ db.stages stage _).symm
  · exact (updateUserAggregate_id user _ db.stages stage _).trans hid
  · rw [updateUserAggregate_globalScore, hid]
    rfl

/-- C1: the submission writes commit atomically.  Whenever the handler
does not return 201 the persisted state is exactly the pre-request state
(no attempt row, no response row, no progress mutation, no aggregate
change); and whenever it returns 201 the persisted state is exactly the
committed state holding all the writes at once: the attempt row (with
its finalized score), all graded response rows, the feedback row, the
upserted progress row and the updated user aggregate. -/
theorem submission_transaction_atomic (db : DbState) (req : SubmitRequest)
    (authUserId : Int) (or : SubmitOracle) :
    ((∀ fid aid, (submitAttempt db req authUserId or).2.2 ≠ .created fid aid) →
      (submitAttempt db req authUserId or).1 = db)
  ∧ (∀ fid aid, (submitAttempt db req authUserId or).2.2 = .created fid aid →
      ∃ userIdNum stageIdNum user stage rows correctCount revs payload,
        validateIds req authUserId = .ok (userIdNum, stageIdNum) ∧
        findUser db.users userIdNum = some user ∧
        findStage db.stages stageIdNum = some stage ∧
        processResponses (questionsFor db req) req.responses or user
          (newAttemptRow db req or user stage) 0 = .ok (rows, correctCount, revs) ∧
        generateFeedback or.feedback = .ok payload ∧
        (submitAttempt db req authUserId or).1 =
          committedState db req or userIdNum stageIdNum user stage rows correctCount
            payload ∧
        (∃ a ∈ (submitAttempt db req authUserId or).1.attempts,
          a.attemptId = req.attemptId ∧
          a.score = some (finalScore correctCount req.responses.length) ∧
          a.isCompleted = true) ∧
        (submitAttempt db req authUserId or).1.userResponses = db.userResponses ++ rows ∧
        findUserStage (submitAttempt db req authUserId or).1.userStages userIdNum stageIdNum
          = some (updateUserStage (findUserStage db.userStages userIdNum stageIdNum)
              userIdNum stageIdNum (finalScore correctCount req.responses.length) or.now) ∧
        (∃ fr ∈ (submitAttempt db req authUserId or).1.feedbacks,
          fr.id = fid ∧ fr.payload = payload) ∧
        (∃ u ∈ (submitAttempt db req authUserId or).1.users, u.id = userIdNum ∧
          u.globalScore =
            sumCompletedScores (submitAttempt db req authUserId or).1.userStages
              userIdNum)) := by
  constructor
  · exact submitAttempt_not_created_state db req authUserId or
  · intro fid aid hcre
    have h : submitAttempt db req authUserId or =
        ((submitAttempt db req authUserId or).1, (submitAttempt db req authUserId or).2.1,
          SubmitResult.created fid aid) := by
      rw [← hcre]
    obtain ⟨uid, sid, user, stage, rows, c, revs, payload, hv, hu, hs, hp, hg, hflags,
      hfid, haid, htr, hst⟩ := submitAttempt_created_inv h
    refine ⟨uid, sid, user, stage, rows, c, revs, payload, hv, hu, hs, hp, hg, hst,
      ?_, ?_, ?_, ?_, ?_⟩
    · rw [hst]
      exact committedState_attempt_mem db req or uid sid user stage rows c payload
    · rw [hst]
      rfl
    · rw [hst]
      exact committedState_userStage db req or uid sid user stage rows c payload
    · rw [hst]
      obtain ⟨fr, hmem, hid, hpl, _, _, _⟩ :=
        committedState_feedback_mem db req or uid sid user stage rows c payload
      exact ⟨fr, hmem, by rw [hid, hfid], hpl⟩
    · rw [hst]
      obtain ⟨u, hmem, hid, hscore, _⟩ :=
        committedState_user_mem db req or uid sid user stage rows c payload hu
      exact ⟨u, hmem, hid, hscore⟩

/-- C1 witness: an authorization-mismatch submission leaves the database
untouched. -/
theorem submission_transaction_atomic_witness :
    (submitAttempt exDb exReq 999 exOracle).1 = exDb := by
  apply (submission_transaction_atomic exDb exReq 999 exOracle).1
  intro fid aid h
  rw [show (submitAttempt exDb exReq 999 exOracle).2.2 = SubmitResult.clientError 403 from
    by decide] at h
  exact SubmitResult.noConfusion h

/-- C3 counterexample: the code advances the current-stage pointer
whenever the progress record is completed, not only when this submission
just completed it.  Resubmitting the already-completed stage 1 with a
wrong answer (final score 0, below the threshold) still moves the
pointer from its stored value 7 to stage 2, although this submission did
not just complete the stage; the claim requires the pointer to stay
unchanged. -/
theorem pointer_advance_counterexample :
    (submitAttempt exDbCompleted exReqWrong 1 exOracle).2.2
      = SubmitResult.created 1 "att-1" ∧
    findUserStage exDbCompleted.userStages 1 1
      = some { userId := 1, stageId := 1, isCompleted := true, score := some 80, completedAt := some 50 } ∧
    finalScore 0 1 = 0 ∧
    findUser exDbCompleted.users 1
      = some { id := 1, globalScore := 0, currentStageId := 7 } ∧
    findUser (submitAttempt exDbCompleted exReqWrong 1 exOracle).1.users 1
      = some { id := 1, globalScore := 80, currentStageId := 2 } := by
  decide

/-- C3 amended: after every successful submission the global score
equals the sum of the scores of the completed progress rows of the user,
and the current-stage pointer is set to the active stage whose sequence
number is the submitted stage plus one whenever the (post-upsert)
progress record is completed - whether or not this submission just
completed it - and is left unchanged when that record is not completed
or no such next stage exists. -/
theorem aggregate_update_characterization (db : DbState) (req : SubmitRequest)
    (authUserId : Int) (or : SubmitOracle) (fid : Int) (aid : String)
    (hcre : (submitAttempt db req authUserId or).2.2 = .created fid aid) :
    ∃ userIdNum stageIdNum user stage userStage,
      validateIds req authUserId = .ok (userIdNum, stageIdNum) ∧
      findUser db.users userIdNum = some user ∧
      findStage db.stages stageIdNum = some stage ∧
      findUserStage (submitAttempt db req authUserId or).1.userStages userIdNum stageIdNum
        = some userStage ∧
      ∃ u ∈ (submitAttempt db req authUserId or).1.users,
        u.id = userIdNum ∧
        u.globalScore = sumCompletedScores
          (submitAttempt db req authUserId or).1.userStages userIdNum ∧
        (userStage.isCompleted = true →
          (match db.stages.find? (fun s =>
              s.displayOrder == stage.displayOrder + 1 && s.isActive) with
            | some nextStage => u.currentStageId = nextStage.id
            | none => u.currentStageId = user.currentStageId)) ∧
        (userStage.isCompleted = false → u.currentStageId = user.currentStageId) := by
  have h : submitAttempt db req authUserId or =
      ((submitAttempt db req authUserId or).1, (submitAttempt db req authUserId or).2.1,
        SubmitResult.created fid aid) := by
    rw [← hcre]
  obtain ⟨uid, sid, user, stage, rows, c, revs, payload, hv, hu, hs, hp, hg, hflags,
    hfid, haid, htr, hst⟩ := submitAttempt_created_inv h
  refine ⟨uid, sid, user, stage,
    updateUserStage (findUserStage db.userStages uid sid) uid sid
      (finalScore c req.responses.length) or.now, hv, hu, hs, ?_, ?_⟩
  · rw [hst]
    exact committedState_userStage db req or uid sid user stage rows c payload
  · obtain ⟨u, hmem, hid, hscore, hueq⟩ :=
      committedState_user_mem db req or uid sid user stage rows c payload hu
    refine ⟨u, by rw [hst]; exact hmem, hid, by rw [hst]; exact hscore, ?_, ?_⟩
    · intro hcomp
      rw [hueq]
      exact (updateUserAggregate_currentStageId user _ db.stages stage _).1 hcomp
    · intro hcomp
      rw [hueq]
      exact (updateUserAggregate_currentStageId user _ db.stages stage _).2 hcomp

/-- C3 witness: the passing submission on the fresh database completes
stage 1, sets the global score to the sum of completed rows, and points
the user at stage 2. -/
theorem aggregate_update_characterization_witness :
    ∃ userIdNum stageIdNum user stage userStage,
      validateIds exReq 1 = .ok (userIdNum, stageIdNum) ∧
      findUser exDb.users userIdNum = some user ∧
      findStage exDb.stages stageIdNum = some stage ∧
      findUserStage (submitAttempt exDb exReq 1 exOracle).1.userStages userIdNum stageIdNum
        = some userStage ∧
      ∃ u ∈ (submitAttempt exDb exReq 1 exOracle).1.users,
        u.id = userIdNum ∧
        u.globalScore = sumCompletedScores
          (submitAttempt exDb exReq 1 exOracle).1.userStages userIdNum ∧
        (userStage.isCompleted = true →
          (match exDb.stages.find? (fun s =>
              s.displayOrder == stage.displayOrder + 1 && s.isActive) with
            | some nextStage => u.currentStageId = nextStage.id
            | none => u.currentStageId = user.currentStageId)) ∧
        (userStage.isCompleted = false → u.currentStageId = user.currentStageId) :=
  aggregate_update_characterization exDb exReq 1 exOracle 1 "att-1" (by decide)

/-- C7 counterexample: a transport-level failure of the feedback
delegate (timeout, network error) is not recovered locally.  On a
submission that would otherwise succeed, the thrown error reaches the
catch block: the handler answers 500, the whole evaluation rolls back,
and no Feedback row is created - the claim requires a feedback row and a
preserved evaluation for every delegate failure including timeouts. -/
theorem feedback_timeout_counterexample :
    (submitAttempt exDb exReq 1 { exOracle with feedback := .transportError }).2.2
      = SubmitResult.serverError ∧
    (submitAttempt exDb exReq 1 { exOracle with feedback := .transportError }).1 = exDb ∧
    (submitAttempt exDb exReq 1 { exOracle with feedback := .transportError }).1.feedbacks
      = [] ∧
    (submitAttempt exDb exReq 1 exOracle).2.2 = SubmitResult.created 1 "att-1" := by
  decide

/-- C7 amended: only parse-level failures of the feedback delegate
(malformed structure, non-JSON output, missing required fields) are
recovered locally with the fixed fallback payload, and then a Feedback
row carrying the fallback payload is still created and the submission
still succeeds; a transport-level failure (timeout, network) propagates,
is never part of a 201 outcome, and rolls back the whole - not yet
committed - submission. -/
theorem feedback_fallback_characterization (f : ParsedFeedback) (db : DbState)
    (req : SubmitRequest) (authUserId : Int) (or : SubmitOracle) (fid : Int)
    (aid : String) :
    generateFeedback .parseFailure = .ok fallbackFeedback
  ∧ (requiredFieldsPresent f = false → generateFeedback (.parsed f) = .ok fallbackFeedback)
  ∧ generateFeedback .transportError = .error ()
  ∧ (or.feedback = .parseFailure →
      (submitAttempt db req authUserId or).2.2 = .created fid aid →
      ∃ fr ∈ (submitAttempt db req authUserId or).1.feedbacks,
        fr.id = fid ∧ fr.payload = fallbackFeedback)
  ∧ (or.feedback = .transportError →
      (∀ fid2 aid2, (submitAttempt db req authUserId or).2.2 ≠ .created fid2 aid2) ∧
      (submitAttempt db req authUserId or).1 = db) := by
  refine ⟨rfl, ?_, rfl, ?_, ?_⟩
  · intro hreq
    simp [generateFeedback, hreq]
  · intro hfb hcre
    have h : submitAttempt db req authUserId or =
        ((submitAttempt db req authUserId or).1, (submitAttempt db req authUserId or).2.1,
          SubmitResult.created fid aid) := by
      rw [← hcre]
    obtain ⟨uid, sid, user, stage, rows, c, revs, payload, hv, hu, hs, hp, hg, hflags,
      hfid, haid, htr, hst⟩ := submitAttempt_created_inv h
    rw [hfb] at hg
    have hpayload : payload = fallbackFeedback := by
      have : Except.ok (ε := Unit) fallbackFeedback = .ok payload := hg
      injection this with h2
      exact h2.symm
    rw [hst]
    obtain ⟨fr, hmem, hid, hpl, _, _, _⟩ :=
      committedState_feedback_mem db req or uid sid user stage rows c payload
    exact ⟨fr, hmem, by rw [hid, hfid], by rw [hpl, hpayload]⟩
  · intro hfb
    have hnc : ∀ fid2 aid2,
        (submitAttempt db req authUserId or).2.2 ≠ .created fid2 aid2 := by
      intro fid2 aid2 hcre
      have h : submitAttempt db req authUserId or =
          ((submitAttempt db req authUserId or).1,
            (submitAttempt db req authUserId or).2.1,
            SubmitResult.created fid2 aid2) := by
        rw [← hcre]
      obtain ⟨uid, sid, user, stage, rows, c, revs, payload, hv, hu, hs, hp, hg, hflags,
        hfid, haid, htr, hst⟩ := submitAttempt_created_inv h
      rw [hfb] at hg
      exact Except.noConfusion hg
    exact ⟨hnc, submitAttempt_not_created_state db req authUserId or hnc⟩

/-- C7 witness: on the clean run whose delegate reply is unparsable, the
committed state carries a Feedback row with the fallback payload. -/
theorem feedback_fallback_witness :
    ∃ fr ∈ (submitAttempt exDb exReq 1 exOracle).1.feedbacks,
      fr.id = 1 ∧ fr.payload = fallbackFeedback :=
  (feedback_fallback_characterization
    { strengths := none, improvements := none, nextSteps := none,
      detailedFeedback := none, badge := none }
    exDb exReq 1 exOracle 1 "att-1").2.2.2.1 rfl (by decide)

/-- C8 counterexample: on a successful submission the Feedback Generator
is invoked and its row saved inside the transaction, before
commitTransaction, not after it: in the event trace of a concrete 201
run, saveFeedback occurs at a strictly earlier position than
commitTransaction. -/
theorem feedback_before_commit_counterexample :
    (submitAttempt exDb exReq 1 exOracle).2.2 = SubmitResult.created 1 "att-1" ∧
    (submitAttempt exDb exReq 1 exOracle).2.1
      = [Ev.beginTransaction, Ev.saveAttempt, Ev.saveResponse 0,
          Ev.invokeFeedbackDelegate, Ev.saveFeedback, Ev.saveAttemptScore,
          Ev.saveUserStage, Ev.saveUser, Ev.commitTransaction] ∧
    List.indexOf Ev.saveFeedback (submitAttempt exDb exReq 1 exOracle).2.1 <
      List.indexOf Ev.commitTransaction (submitAttempt exDb exReq 1 exOracle).2.1 := by
  decide

/-- C8 amended: on every successful submission the feedback delegate is
invoked and the Feedback row saved strictly between the start of the
transaction and the commit (so the write is transactional, not
post-commit); consequently a transport failure of the delegate, or a
failed feedback save, prevents the 201 outcome and rolls the whole
submission back. -/
theorem feedback_transactional (db : DbState) (req : SubmitRequest)
    (authUserId : Int) (or : SubmitOracle) :
    (∀ fid aid, (submitAttempt db req authUserId or).2.2 = .created fid aid →
      ∃ pre post,
        (submitAttempt db req authUserId or).2.1
          = Ev.beginTransaction :: pre ++
              Ev.invokeFeedbackDelegate :: Ev.saveFeedback :: post ++
              [Ev.commitTransaction])
  ∧ (or.feedback = .transportError →
      (∀ fid aid, (submitAttempt db req authUserId or).2.2 ≠ .created fid aid) ∧
      (submitAttempt db req authUserId or).1 = db)
  ∧ (or.failSaveFeedback = true →
      (∀ fid aid, (submitAttempt db req authUserId or).2.2 ≠ .created fid aid) ∧
      (submitAttempt db req authUserId or).1 = db) := by
  refine ⟨?_, ?_, ?_⟩
  · intro fid aid hcre
    have h : submitAttempt db req authUserId or =
        ((submitAttempt db req authUserId or).1, (submitAttempt db req authUserId or).2.1,
          SubmitResult.created fid aid) := by
      rw [← hcre]
    obtain ⟨uid, sid, user, stage, rows, c, revs, payload, hv, hu, hs, hp, hg, hflags,
      hfid, haid, htr, hst⟩ := submitAttempt_created_inv h
    refine ⟨Ev.saveAttempt :: revs,
      [Ev.saveAttemptScore, Ev.saveUserStage, Ev.saveUser], ?_⟩
    rw [htr]
    simp
  · intro hfb
    have hnc : ∀ fid aid,
        (submitAttempt db req authUserId or).2.2 ≠ .created fid aid := by
      intro fid aid hcre
      have h : submitAttempt db req authUserId or =
          ((submitAttempt db req authUserId or).1,
            (submitAttempt db req authUserId or).2.1,
            SubmitResult.created fid aid) := by
        rw [← hcre]
      obtain ⟨uid, sid, user, stage, rows, c, revs, payload, hv, hu, hs, hp, hg, hflags,
        hfid, haid, htr, hst⟩ := submitAttempt_created_inv h
      rw [hfb] at hg
      exact Except.noConfusion hg
    exact ⟨hnc, submitAttempt_not_created_state db req authUserId or hnc⟩
  · intro hfail
    have hnc : ∀ fid aid,
        (submitAttempt db req authUserId or).2.2 ≠ .created fid aid := by
      intro fid aid hcre
      have h : submitAttempt db req authUserId or =
          ((submitAttempt db req authUserId or).1,
            (submitAttempt db req authUserId or).2.1,
            SubmitResult.created fid aid) := by
        rw [← hcre]
      obtain ⟨uid, sid, user, stage, rows, c, revs, payload, hv, hu, hs, hp, hg, hflags,
        hfid, haid, htr, hst⟩ := submitAttempt_created_inv h
      rw [hfail] at hflags
      exact Bool.noConfusion hflags.2.1
    exact ⟨hnc, submitAttempt_not_created_state db req authUserId or hnc⟩

/-- C8 witness: the successful concrete run has its feedback events
strictly inside the begin/commit bracket. -/
theorem feedback_transactional_witness :
    ∃ pre post,
      (submitAttempt exDb exReq 1 exOracle).2.1
        = Ev.beginTransaction :: pre ++
            Ev.invokeFeedbackDelegate :: Ev.saveFeedback :: post ++
            [Ev.commitTransaction] :=
  (feedback_transactional exDb exReq 1 exOracle).1 1 "att-1" (by decide)

theorem newAttemptRow_aiEval (db : DbState) (req : SubmitRequest) (or : SubmitOracle)
    (g : Nat → OpenEvalOutcome) (user : User) (stage : Stage) :
    newAttemptRow db req { or with aiEval := g } user stage
      = newAttemptRow db req or user stage := rfl

theorem processResponses_respShape (questions : List Question) (or : SubmitOracle)
    (g : Nat → OpenEvalOutcome) (user : User) (attempt : EvaluationAttempt) :
    ∀ (rs : List SubmittedResponse) (i : Nat),
      respShape (processResponses questions rs { or with aiEval := g } user attempt i)
        = respShape (processResponses questions rs or user attempt i) := by
  intro rs
  induction rs with
  | nil => intro i; rfl
  | cons r rest ih =>
      intro i
      simp only [processResponses]
      cases lookupQuestion questions r with
      | none => exact ih (i + 1)
      | some question =>
          simp only []
          by_cases hf : or.failSaveResponse i = true
          · rw [if_pos hf, if_pos hf]
          · rw [if_neg hf, if_neg hf]
            have h := ih (i + 1)
            rcases h1 : processResponses questions rest { or with aiEval := g } user attempt
                (i + 1) with e1 | t1
            · rw [h1] at h
              rcases h2 : processResponses questions rest or user attempt (i + 1) with e2 | t2
              · rw [h2] at h
                simp only [respShape] at h
                injection h with h
                subst h
                rfl
              · rw [h2] at h
                obtain ⟨r2, c2, ev2⟩ := t2
                simp only [respShape] at h
                exact Except.noConfusion h
            · obtain ⟨r1, c1, ev1⟩ := t1
              rw [h1] at h
              rcases h2 : processResponses questions rest or user attempt (i + 1) with e2 | t2
              · rw [h2] at h
                simp only [respShape] at h
                exact Except.noConfusion h
              · obtain ⟨r2, c2, ev2⟩ := t2
                rw [h2] at h
                simp only [respShape] at h
                injection h with h
                subst h
                rfl

theorem runTransaction_txnShape (db : DbState) (req : SubmitRequest) (or : SubmitOracle)
    (g : Nat → OpenEvalOutcome) (userIdNum stageIdNum : Int) :
    txnShape (runTransaction db req { or with aiEval := g } userIdNum stageIdNum)
      = txnShape (runTransaction db req or userIdNum stageIdNum) := by
  unfold runTransaction
  cases hu : findUser db.users userIdNum with
  | none => rfl
  | some user =>
  cases hs : findStage db.stages stageIdNum with
  | none => rfl
  | some stage =>
  simp only [newAttemptRow_aiEval]
  by_cases h1 : (List.filter (fun q => q.stageId == stageIdNum) db.questions).isEmpty = true
  · rw [if_pos h1, if_pos h1]
  rw [if_neg h1, if_neg h1]
  by_cases h2 : ((List.map (fun r => r.questionId) req.responses).isEmpty ||
      (List.map (fun r => r.questionId) req.responses).all
        (fun id => id == some 0 || id == none)) = true
  · rw [if_pos h2, if_pos h2]
  rw [if_neg h2, if_neg h2]
  by_cases h3 : (questionsFor db req).isEmpty = true
  · rw [if_pos h3, if_pos h3]
  rw [if_neg h3, if_neg h3]
  by_cases h4 : (req.responses.any fun r =>
      r.questionId == some 0 || (lookupQuestion (questionsFor db req) r).isNone) = true
  · rw [if_pos h4, if_pos h4]
  rw [if_neg h4, if_neg h4]
  by_cases h5 : or.failSaveAttempt = true
  · rw [if_pos h5, if_pos h5]
  rw [if_neg h5, if_neg h5]
  have hshape := processResponses_respShape (questionsFor db req) or g user
    (newAttemptRow db req or user stage) req.responses 0
  rcases hp1 : processResponses (questionsFor db req) req.responses { or with aiEval := g }
      user (newAttemptRow db req or user stage) 0 with e1 | t1
  · rw [hp1] at hshape
    rcases hp2 : processResponses (questionsFor db req) req.responses or user
        (newAttemptRow db req or user stage) 0 with e2 | t2
    · rw [hp2] at hshape
      simp only [respShape] at hshape
      injection hshape with hshape
      subst hshape
      rfl
    · obtain ⟨r2, c2, ev2⟩ := t2
      rw [hp2] at hshape
      simp only [respShape] at hshape
      exact Except.noConfusion hshape
  · obtain ⟨r1, c1, ev1⟩ := t1
    rw [hp1] at hshape
    rcases hp2 : processResponses (questionsFor db req) req.responses or user
        (newAttemptRow db req or user stage) 0 with e2 | t2
    · rw [hp2] at hshape
      simp only [respShape] at hshape
      exact Except.noConfusion hshape
    · obtain ⟨r2, c2, ev2⟩ := t2
      rw [hp2] at hshape
      simp only [respShape] at hshape
      injection hshape with hshape
      subst hshape
      cases hg2 : generateFeedback or.feedback with
      | error e => rfl
      | ok payload =>
      simp only []
      by_cases h6 : or.failSaveFeedback = true
      · rw [if_pos h6, if_pos h6]
      rw [if_neg h6, if_neg h6]
      by_cases h7 : or.failSaveScore = true
      · rw [if_pos h7, if_pos h7]
      rw [if_neg h7, if_neg h7]
      by_cases h8 : or.failSaveUserStage = true
      · rw [if_pos h8, if_pos h8]
      rw [if_neg h8, if_neg h8]
      simp only [hu]
      by_cases h9 : or.failSaveUser = true
      · rw [if_pos h9, if_pos h9]
      rw [if_neg h9, if_neg h9]
      rfl

theorem submitAttempt_aiEval_shape (db : DbState) (req : SubmitRequest) (authUserId : Int)
    (or : SubmitOracle) (g : Nat → OpenEvalOutcome) :
    (submitAttempt db req authUserId { or with aiEval := g }).2
      = (submitAttempt db req authUserId or).2 := by
  unfold submitAttempt
  cases hv : validateIds req authUserId with
  | error e => rfl
  | ok p =>
      obtain ⟨uid, sid⟩ := p
      have hts := runTransaction_txnShape db req or g uid sid
      rcases h1 : runTransaction db req { or with aiEval := g } uid sid with ⟨ev1, er1⟩ | t1
      · rw [h1] at hts
        rcases h2 : runTransaction db req or uid sid with ⟨ev2, er2⟩ | t2
        · rw [h2] at hts
          simp only [txnShape] at hts
          injection hts with hts
          simp only [Prod.mk.injEq] at hts
          obtain ⟨hev, her⟩ := hts
          subst hev
          subst her
          simp only [h1, h2]
        · obtain ⟨db2, ev2, fid2⟩ := t2
          rw [h2] at hts
          simp only [txnShape] at hts
          exact Except.noConfusion hts
      · obtain ⟨db1, ev1, fid1⟩ := t1
        rw [h1] at hts
        rcases h2 : runTransaction db req or uid sid with ⟨ev2, er2⟩ | t2
        · rw [h2] at hts
          simp only [txnShape] at hts
          exact Except.noConfusion hts
        · obtain ⟨db2, ev2, fid2⟩ := t2
          rw [h2] at hts
          simp only [txnShape] at hts
          injection hts with hts
          simp only [Prod.mk.injEq] at hts
          obtain ⟨hev, hfid⟩ := hts
          subst hev
          subst hfid
          simp only [h1, h2]

theorem find?_map_replace_other (us : UserStage) (uid sid : Int)
    (hp : (us.userId == uid && us.stageId == sid) = false) :
    ∀ l : List UserStage,
      ((l.map (fun x =>
        if x.userId == us.userId && x.stageId == us.stageId then us else x)).find?
          (fun x => x.userId == uid && x.stageId == sid))
        = l.find? (fun x => x.userId == uid && x.stageId == sid) := by
  intro l
  induction l with
  | nil => rfl
  | cons x xs ih =>
      simp only [List.map_cons]
      by_cases hk : (x.userId == us.userId && x.stageId == us.stageId) = true
      · rw [if_pos hk]
        have hkeys : x.userId = us.userId ∧ x.stageId = us.stageId := by
          simpa using hk
        have hx : (x.userId == uid && x.stageId == sid) = false := by
          rw [hkeys.1, hkeys.2]
          exact hp
        simp only [List.find?_cons, hp, hx]
        exact ih
      · rw [if_neg hk]
        cases hx : (x.userId == uid && x.stageId == sid) with
        | true => simp only [List.find?_cons, hx]
        | false =>
            simp only [List.find?_cons, hx]
            exact ih

theorem find?_append_other (us : UserStage) (uid sid : Int)
    (hp : (us.userId == uid && us.stageId == sid) = false) :
    ∀ l : List UserStage,
      (l ++ [us]).find? (fun x => x.userId == uid && x.stageId == sid)
        = l.find? (fun x => x.userId == uid && x.stageId == sid) := by
  intro l
  induction l with
  | nil =>
      simp only [List.nil_append, List.find?_cons, hp]
  | cons x xs ih =>
      simp only [List.cons_append, List.find?_cons]
      cases hx : (x.userId == uid && x.stageId == sid) with
      | true => rfl
      | false => exact ih

theorem findUserStage_save_other (l : List UserStage) (us : UserStage) (uid sid : Int)
    (hne : ¬(us.userId = uid ∧ us.stageId = sid)) :
    findUserStage (saveUserStageRow l us) uid sid = findUserStage l uid sid := by
  have hp1 : ¬ ((us.userId == uid && us.stageId == sid) = true) := by
    simpa using hne
  have hp : (us.userId == uid && us.stageId == sid) = false := by
    simpa using hp1
  unfold saveUserStageRow findUserStage
  by_cases h : l.any (fun x => x.userId == us.userId && x.stageId == us.stageId) = true
  · rw [if_pos h]
    exact find?_map_replace_other us uid sid hp l
  · rw [if_neg h]
    exact find?_append_other us uid sid hp l

theorem submit_userStage_monotone (db : DbState) (req : SubmitRequest)
    (authUserId : Int) (or : SubmitOracle) (fid : Int) (aid : String)
    (uid2 sid2 : Int) (old : UserStage)
    (hcre : (submitAttempt db req authUserId or).2.2 = .created fid aid)
    (hold : findUserStage db.userStages uid2 sid2 = some old) :
    ∃ new, findUserStage (submitAttempt db req authUserId or).1.userStages uid2 sid2
        = some new ∧
      jsOrZero old.score ≤ jsOrZero new.score ∧
      (old.isCompleted = true → new.isCompleted = true) := by
  have h : submitAttempt db req authUserId or =
      ((submitAttempt db req authUserId or).1, (submitAttempt db req authUserId or).2.1,
        SubmitResult.created fid aid) := by
    rw [← hcre]
  obtain ⟨uid, sid, user, stage, rows, c, revs, payload, hv, hu, hs, hp, hg, hflags,
    hfid, haid, htr, hst⟩ := submitAttempt_created_inv h
  rw [hst]
  obtain ⟨huid, hsid⟩ := updateUserStage_ids db.userStages uid sid
    (finalScore c req.responses.length) or.now
  by_cases hcase :
      (updateUserStage (findUserStage db.userStages uid sid) uid sid
        (finalScore c req.responses.length) or.now).userId = uid2 ∧
      (updateUserStage (findUserStage db.userStages uid sid) uid sid
        (finalScore c req.responses.length) or.now).stageId = sid2
  · have heq1 : uid = uid2 := huid.symm.trans hcase.1
    have heq2 : sid = sid2 := hsid.symm.trans hcase.2
    subst heq1
    subst heq2
    refine ⟨updateUserStage (some old) uid sid (finalScore c req.responses.length) or.now,
      ?_, ?_, ?_⟩
    · have hfind := committedState_userStage db req or uid sid user stage rows c payload
      rw [hold] at hfind
      exact hfind
    · exact updateUserStage_score_mono old uid sid (finalScore c req.responses.length) or.now
    · intro hc
      rw [updateUserStage_isCompleted_eq, hc, Bool.true_or]
  · have hother : findUserStage
        (committedState db req or uid sid user stage rows c payload).userStages uid2 sid2
        = findUserStage db.userStages uid2 sid2 := by
      show findUserStage (saveUserStageRow db.userStages _) uid2 sid2 = _
      exact findUserStage_save_other db.userStages _ uid2 sid2 hcase
    rw [hother, hold]
    exact ⟨old, rfl, le_refl _, fun hc => hc⟩

/-- C9: a grading-delegate failure is isolated to its own question: an
open question whose delegate call throws (timeout, network error) or
returns unparsable output is graded incorrect with zero points, and the
control flow of the whole submission - its event trace and its HTTP
outcome, hence whether it commits - does not depend on the grading
delegate outcomes at all, so a single delegate failure never aborts the
batch. -/
theorem open_grading_failure_isolated :
    (∀ (q : Question) (answer : String), q.type ≠ "multiple-choice" →
      gradeResponse q answer .transportError = some false ∧
      gradeResponse q answer .parseFailure = some false ∧
      pointsEarnedFor (gradeResponse q answer .transportError) q = 0 ∧
      pointsEarnedFor (gradeResponse q answer .parseFailure) q = 0)
  ∧ (∀ (db : DbState) (req : SubmitRequest) (authUserId : Int) (or : SubmitOracle)
      (g : Nat → OpenEvalOutcome),
      (submitAttempt db req authUserId { or with aiEval := g }).2
        = (submitAttempt db req authUserId or).2) := by
  constructor
  · intro q answer htype
    have hb : (q.type == "multiple-choice") = false := by
      simp [htype]
    refine ⟨?_, ?_, ?_, ?_⟩ <;>
      simp [gradeResponse, evaluateOpenQuestion, hb, pointsEarnedFor, jsTruthy]
  · intro db req authUserId or g
    exact submitAttempt_aiEval_shape db req authUserId or g

/-- C9 witness: an open question whose delegate call times out is graded
incorrect. -/
theorem open_grading_failure_isolated_witness :
    gradeResponse { exQuestion with type := "open-text" } "short answer"
      OpenEvalOutcome.transportError = some false :=
  (open_grading_failure_isolated.1 { exQuestion with type := "open-text" } "short answer"
    (by decide)).1

/-- C2: across any sequence of submissions for one user and stage, the
stored user_stages record is monotone: one submission never lowers the
stored score, the isCompleted flag is exactly the old flag or-ed with the
60-percent threshold test (so it changes only from false to true, the
first time the threshold is crossed), and along any list of submitted
final scores the stored score never decreases and a completed record
stays completed. -/
theorem userProgress_monotone (us : UserStage) (uid sid now : Int) (scores : List Int) :
    (∀ s : Int,
        jsOrZero us.score ≤ jsOrZero ((updateUserStage (some us) uid sid s now).score)
      ∧ (updateUserStage (some us) uid sid s now).isCompleted
          = (us.isCompleted || decide (s ≥ 60)))
  ∧ jsOrZero us.score ≤
      jsOrZero ((scores.foldl (fun acc s => updateUserStage (some acc) uid sid s now) us).score)
  ∧ (us.isCompleted = true →
      (scores.foldl (fun acc s => updateUserStage (some acc) uid sid s now) us).isCompleted
        = true)
  ∧ (∀ (db : DbState) (req : SubmitRequest) (authUserId : Int) (or : SubmitOracle)
      (fid : Int) (aid : String) (uid2 sid2 : Int) (old : UserStage),
      (submitAttempt db req authUserId or).2.2 = .created fid aid →
      findUserStage db.userStages uid2 sid2 = some old →
      ∃ new, findUserStage (submitAttempt db req authUserId or).1.userStages uid2 sid2
          = some new ∧
        jsOrZero old.score ≤ jsOrZero new.score ∧
        (old.isCompleted = true → new.isCompleted = true)) :=
  ⟨fun s => ⟨updateUserStage_score_mono us uid sid s now,
      updateUserStage_isCompleted_eq us uid sid s now⟩,
    foldl_updateUserStage_score_mono uid sid now scores us,
    foldl_updateUserStage_isCompleted_mono uid sid now scores us,
    fun db req authUserId or fid aid uid2 sid2 old hcre hold =>
      submit_userStage_monotone db req authUserId or fid aid uid2 sid2 old hcre hold⟩

/-- C2 witness: a completed record with score 80 survives a score-30
resubmission untouched. -/
theorem userProgress_monotone_witness :
    (([30] : List Int).foldl
        (fun acc s => updateUserStage (some acc) 1 1 s 9)
        { userId := 1, stageId := 1, isCompleted := true, score := some 80,
          completedAt := some 5 }).isCompleted = true ∧
    ∃ new, findUserStage (submitAttempt exDbCompleted exReqWrong 1 exOracle).1.userStages 1 1
        = some new ∧
      jsOrZero (some 80) ≤ jsOrZero new.score ∧
      (true = true → new.isCompleted = true) :=
  ⟨(userProgress_monotone
      { userId := 1, stageId := 1, isCompleted := true, score := some 80,
        completedAt := some 5 } 1 1 9 [30]).2.2.1 rfl,
    (userProgress_monotone
      { userId := 1, stageId := 1, isCompleted := true, score := some 80,
        completedAt := some 5 } 1 1 9 [30]).2.2.2 exDbCompleted exReqWrong 1 exOracle
      1 "att-1" 1 1
      { userId := 1, stageId := 1, isCompleted := true, score := some 80,
        completedAt := some 50 }
      (by decide) (by decide)⟩

theorem log2Fuel_spec : ∀ fuel n, 1 ≤ n → n ≤ fuel →
    2 ^ log2Fuel fuel n ≤ n ∧ n < 2 ^ (log2Fuel fuel n + 1) := by
  intro fuel
  induction fuel with
  | zero => intro n h1 h2; omega
  | succ fuel ih =>
      intro n h1 h2
      by_cases hn : 2 ≤ n
      · simp only [log2Fuel, if_pos hn]
        obtain ⟨hl, hr⟩ := ih (n / 2) (by omega) (by omega)
        constructor
        · rw [pow_succ]
          have := Nat.mul_le_mul_right 2 hl
          omega
        · rw [pow_succ]
          have := Nat.mul_le_mul_right 2 hr
          omega
      · simp only [log2Fuel, if_neg hn]
        omega

theorem natLog2_spec (n : Nat) (h : 1 ≤ n) :
    2 ^ natLog2 n ≤ n ∧ n < 2 ^ (natLog2 n + 1) :=
  log2Fuel_spec n n h le_rfl

/-- The half-to-even integer rounding lands within half a unit of the
exact quotient. -/
theorem rnHalfEven_err (a b : Nat) (hb : 1 ≤ b) :
    |(rnHalfEven a b : ℚ) - (a : ℚ) / b| ≤ 1 / 2 := by
  have hb0 : (0 : ℚ) < b := by exact_mod_cast hb
  have hmlt : a % b < b := Nat.mod_lt a hb
  have hdm2 : (a : ℚ) = (b : ℚ) * ((a / b : Nat) : ℚ) + ((a % b : Nat) : ℚ) := by
    exact_mod_cast (Nat.div_add_mod a b).symm
  have hq : (a : ℚ) / b = ((a / b : Nat) : ℚ) + ((a % b : Nat) : ℚ) / b := by
    rw [hdm2, add_div, mul_comm, mul_div_assoc, div_self hb0.ne', mul_one]
  have hnn : (0 : ℚ) ≤ ((a % b : Nat) : ℚ) / b := by positivity
  have hub : ((a % b : Nat) : ℚ) / b < 1 := by
    rw [div_lt_one hb0]
    exact_mod_cast hmlt
  simp only [rnHalfEven]
  split_ifs with h1 h2 h3
  · have h1q : 2 * ((a % b : Nat) : ℚ) < b := by exact_mod_cast h1
    have hle : ((a % b : Nat) : ℚ) / b ≤ 1 / 2 := by
      rw [div_le_div_iff₀ hb0 (by norm_num)]
      linarith
    rw [hq, abs_le]
    constructor <;> linarith
  · have h2q : (b : ℚ) < 2 * ((a % b : Nat) : ℚ) := by exact_mod_cast h2
    have hge : 1 / 2 ≤ ((a % b : Nat) : ℚ) / b := by
      rw [div_le_div_iff₀ (by norm_num) hb0]
      linarith
    rw [hq, abs_le]
    push_cast
    constructor <;> linarith
  · have h3q : (b : ℚ) = 2 * ((a % b : Nat) : ℚ) := by
      have : b = 2 * (a % b) := by omega
      exact_mod_cast this
    have heq : ((a % b : Nat) : ℚ) / b = 1 / 2 := by
      rw [h3q]
      rw [div_eq_div_iff (by linarith) (by norm_num)]
      ring
    rw [hq, abs_le, heq]
    constructor <;> norm_num
  · have h3q : (b : ℚ) = 2 * ((a % b : Nat) : ℚ) := by
      have : b = 2 * (a % b) := by omega
      exact_mod_cast this
    have heq : ((a % b : Nat) : ℚ) / b = 1 / 2 := by
      rw [h3q]
      rw [div_eq_div_iff (by linarith) (by norm_num)]
      ring
    rw [hq, abs_le, heq]
    push_cast
    constructor <;> linarith

theorem ratLog2Floor_spec_aux (a b T m L : Nat) (hb : 1 ≤ b)
    (hmdef : m = a * 2 ^ T / b)
    (hL1 : 2 ^ L ≤ m) (hL2 : m < 2 ^ (L + 1)) :
    (2 : ℚ) ^ ((L : ℤ) - (T : ℤ)) ≤ (a : ℚ) / b ∧
      (a : ℚ) / b < 2 ^ ((L : ℤ) - (T : ℤ) + 1) := by
  have hb0 : (0 : ℚ) < b := by exact_mod_cast hb
  have h2T : (0 : ℚ) < ((2 ^ T : ℕ) : ℚ) := by positivity
  have hlow : 2 ^ L * b ≤ a * 2 ^ T := by
    calc 2 ^ L * b ≤ m * b := Nat.mul_le_mul_right b hL1
    _ ≤ a * 2 ^ T := by rw [hmdef]; exact Nat.div_mul_le_self _ _
  have h6 : a * 2 ^ T < b * (m + 1) := by
    have h5 := Nat.div_add_mod (a * 2 ^ T) b
    have h7 : a * 2 ^ T % b < b := Nat.mod_lt _ (by omega)
    rw [hmdef]
    nlinarith [h5, h7]
  have hhigh : a * 2 ^ T < 2 ^ (L + 1) * b := by
    calc a * 2 ^ T < b * (m + 1) := h6
    _ ≤ b * 2 ^ (L + 1) := Nat.mul_le_mul_left b hL2
    _ = 2 ^ (L + 1) * b := mul_comm _ _
  constructor
  · have hz : (2 : ℚ) ^ ((L : ℤ) - (T : ℤ)) = ((2 ^ L : ℕ) : ℚ) / ((2 ^ T : ℕ) : ℚ) := by
      rw [zpow_sub₀ (by norm_num : (2 : ℚ) ≠ 0)]
      push_cast
      norm_num
    rw [hz, div_le_div_iff₀ h2T hb0]
    exact_mod_cast hlow
  · have hz2 : (2 : ℚ) ^ ((L : ℤ) - (T : ℤ) + 1)
        = ((2 ^ (L + 1) : ℕ) : ℚ) / ((2 ^ T : ℕ) : ℚ) := by
      have he : (L : ℤ) - (T : ℤ) + 1 = ((L + 1 : ℕ) : ℤ) - (T : ℤ) := by push_cast; ring
      rw [he, zpow_sub₀ (by norm_num : (2 : ℚ) ≠ 0), zpow_natCast, zpow_natCast]
      push_cast
      norm_num
    rw [hz2, div_lt_div_iff₀ hb0 h2T]
    exact_mod_cast hhigh

/-- ratLog2Floor a b is the floor of log₂ (a / b): the quotient lies in
the binade it names. -/
theorem ratLog2Floor_spec (a b : Nat) (ha : 1 ≤ a) (hb : 1 ≤ b) :
    (2 : ℚ) ^ ratLog2Floor a b ≤ (a : ℚ) / b ∧
      (a : ℚ) / b < 2 ^ (ratLog2Floor a b + 1) := by
  have hbT : b < 2 ^ (natLog2 b + 1) := (natLog2_spec b hb).2
  have hm1 : 1 ≤ a * 2 ^ (natLog2 b + 1) / b := by
    rw [Nat.one_le_div_iff (by omega)]
    calc b ≤ 2 ^ (natLog2 b + 1) := le_of_lt hbT
    _ ≤ a * 2 ^ (natLog2 b + 1) := Nat.le_mul_of_pos_left _ ha
  obtain ⟨hL1, hL2⟩ := natLog2_spec (a * 2 ^ (natLog2 b + 1) / b) hm1
  have hE : ratLog2Floor a b =
      ((natLog2 (a * 2 ^ (natLog2 b + 1) / b) : ℕ) : ℤ) - ((natLog2 b + 1 : ℕ) : ℤ) := by
    simp only [ratLog2Floor]
    push_cast
    ring
  rw [hE]
  exact ratLog2Floor_spec_aux a b (natLog2 b + 1) (a * 2 ^ (natLog2 b + 1) / b)
    (natLog2 (a * 2 ^ (natLog2 b + 1) / b)) hb rfl hL1 hL2

theorem ratLog2Floor_lb (a b : Nat) (ha : 1 ≤ a) (hb : 1 ≤ b) (w : ℤ)
    (hw : (2 : ℚ) ^ w ≤ (a : ℚ) / b) : w ≤ ratLog2Floor a b := by
  have h2 := (ratLog2Floor_spec a b ha hb).2
  have h3 : (2 : ℚ) ^ w < 2 ^ (ratLog2Floor a b + 1) := lt_of_le_of_lt hw h2
  have h4 : w < ratLog2Floor a b + 1 :=
    (zpow_lt_zpow_iff_right₀ (by norm_num : (1 : ℚ) < 2)).mp h3
  omega

theorem zpow_toNat_two (e : ℤ) (he : 0 ≤ e) : (2 : ℚ) ^ e.toNat = (2 : ℚ) ^ e := by
  conv_rhs => rw [← Int.toNat_of_nonneg he]
  rw [zpow_natCast]

theorem zpow_neg_toNat_two (g : ℤ) (hg : g < 0) :
    (2 : ℚ) ^ g = 1 / (2 : ℚ) ^ ((-g).toNat) := by
  conv_lhs => rw [show g = -(((-g).toNat : ℕ) : ℤ) by omega]
  rw [zpow_neg, zpow_natCast]
  norm_num

theorem two_zpow_neg32 : (2 : ℚ) ^ (-32 : ℤ) = 1 / 2 ^ 32 := by
  rw [show (-32 : ℤ) = -((32 : ℕ) : ℤ) by norm_num, zpow_neg, zpow_natCast]
  norm_num

theorem two_zpow_neg33 : (2 : ℚ) ^ (-33 : ℤ) = 1 / 2 ^ 33 := by
  rw [show (-33 : ℤ) = -((33 : ℕ) : ℤ) by norm_num, zpow_neg, zpow_natCast]
  norm_num

theorem rnHalfEven_scaled (A B : Nat) (hB : 1 ≤ B) (c : ℚ) (hc : 0 < c) :
    |(rnHalfEven A B : ℚ) * c - ((A : ℚ) / B) * c| ≤ 1 / 2 * c := by
  rw [← sub_mul, abs_mul, abs_of_pos hc]
  exact mul_le_mul_of_nonneg_right (rnHalfEven_err A B hB) (le_of_lt hc)

/-- The binary64 rounding of a / b is correct to relative precision
2 ^ (-53) on the whole normal range (the grid of its binade is
2 ^ (e - 52) and half-to-even rounding stays within half a grid
step). -/
theorem roundB64_err (a b : Nat) (ha : 1 ≤ a) (hb : 1 ≤ b)
    (hnormal : -1022 ≤ ratLog2Floor a b) :
    |dyadicVal (roundB64 a b) - (a : ℚ) / b| ≤ (a : ℚ) / b * (1 / 2 ^ 53) := by
  obtain ⟨hEl, hEu⟩ := ratLog2Floor_spec a b ha hb
  have hb0 : (0 : ℚ) < b := by exact_mod_cast hb
  have hg : max (ratLog2Floor a b - 52) (-1074) = ratLog2Floor a b - 52 :=
    max_eq_left (by omega)
  have hmain : |dyadicVal (roundB64 a b) - (a : ℚ) / b|
      ≤ 1 / 2 * (2 : ℚ) ^ (ratLog2Floor a b - 52) := by
    simp only [roundB64, if_neg (by omega : ¬ a = 0), hg]
    split_ifs with hgs
    · have hbk : 1 ≤ b * 2 ^ (ratLog2Floor a b - 52).toNat := by
        have h1 : 0 < b * 2 ^ (ratLog2Floor a b - 52).toNat :=
          Nat.mul_pos (by omega) (Nat.two_pow_pos _)
        omega
      have hz : (2 : ℚ) ^ (ratLog2Floor a b - 52) ≠ 0 :=
        zpow_ne_zero _ (by norm_num)
      have hval : ((a : ℚ) / ((b * 2 ^ (ratLog2Floor a b - 52).toNat : ℕ) : ℚ))
          * (2 : ℚ) ^ (ratLog2Floor a b - 52) = (a : ℚ) / b := by
        push_cast
        rw [zpow_toNat_two _ hgs, div_mul_eq_mul_div, mul_comm ((b : ℚ)) _,
          ← div_div, mul_div_assoc, div_self hz, mul_one]
      simp only [dyadicVal]
      rw [← hval]
      exact rnHalfEven_scaled a (b * 2 ^ (ratLog2Floor a b - 52).toNat) hbk _
        (zpow_pos (by norm_num) _)
    · have hak : 1 ≤ a * 2 ^ (-(ratLog2Floor a b - 52)).toNat := by
        have h1 : 0 < a * 2 ^ (-(ratLog2Floor a b - 52)).toNat :=
          Nat.mul_pos (by omega) (Nat.two_pow_pos _)
        omega
      have hcal : (2 : ℚ) ^ (-(ratLog2Floor a b - 52)) * (2 : ℚ) ^ (ratLog2Floor a b - 52)
          = 1 := by
        rw [← zpow_add₀ (by norm_num : (2 : ℚ) ≠ 0)]
        norm_num
      have hval : (((a * 2 ^ (-(ratLog2Floor a b - 52)).toNat : ℕ) : ℚ) / (b : ℚ))
          * (2 : ℚ) ^ (ratLog2Floor a b - 52) = (a : ℚ) / b := by
        push_cast
        rw [zpow_toNat_two _ (by omega : (0 : ℤ) ≤ -(ratLog2Floor a b - 52)),
          div_mul_eq_mul_div, mul_assoc, hcal, mul_one]
      simp only [dyadicVal]
      rw [← hval]
      exact rnHalfEven_scaled (a * 2 ^ (-(ratLog2Floor a b - 52)).toNat) b hb _
        (zpow_pos (by norm_num) _)
  have hfin : 1 / 2 * (2 : ℚ) ^ (ratLog2Floor a b - 52)
      ≤ (a : ℚ) / b * (1 / 2 ^ 53) := by
    have h1 : 1 / 2 * (2 : ℚ) ^ (ratLog2Floor a b - 52)
        = (2 : ℚ) ^ ratLog2Floor a b * (1 / 2 ^ 53) := by
      rw [zpow_sub₀ (by norm_num : (2 : ℚ) ≠ 0)]
      norm_num
      ring
    rw [h1]
    exact mul_le_mul_of_nonneg_right hEl (by positivity)
  exact le_trans hmain hfin

/-- Math.round of a dyadic value is the floor of the exact value plus
one half. -/
theorem jsMathRound_eq (p : Nat × Int) :
    jsMathRound p = ⌊dyadicVal p + 1 / 2⌋ := by
  obtain ⟨m, g⟩ := p
  simp only [jsMathRound, dyadicVal]
  split_ifs with hg
  · have hv : (m : ℚ) * 2 ^ g = ((m * 2 ^ g.toNat : ℕ) : ℚ) := by
      push_cast
      rw [zpow_toNat_two g hg]
    rw [hv, add_comm, Int.floor_add_nat]
    norm_num
  · rw [Int.natCast_div]
    have hfl := Rat.floor_intCast_div_natCast ((2 * m + 2 ^ (-g).toNat : ℕ) : ℤ)
      (2 ^ ((-g).toNat + 1))
    rw [show (((2 ^ ((-g).toNat + 1) : ℕ) : ℤ)) = ((2 : ℤ) ^ ((-g).toNat + 1)) by
      push_cast; ring] at *
    rw [← hfl]
    congr 1
    have h2g : (2 : ℚ) ^ g = 1 / (2 : ℚ) ^ ((-g).toNat) :=
      zpow_neg_toNat_two g (by omega)
    have hmax : -g ⊔ 0 = -g := by omega
    push_cast [hmax]
    rw [h2g]
    field_simp
    ring

/-- The binary64 multiplication by 100 is correct to relative precision
2 ^ (-53) whenever its input is at least 2 ^ (-33) (which keeps the
product in the normal range). -/
theorem b64Mul100_err (m1 : Nat) (g1 : ℤ) (hm1 : 1 ≤ m1)
    (hlow : (1 : ℚ) / 2 ^ 33 ≤ dyadicVal (m1, g1)) :
    |dyadicVal (b64Mul100 (m1, g1)) - 100 * dyadicVal (m1, g1)|
      ≤ 100 * dyadicVal (m1, g1) * (1 / 2 ^ 53) := by
  have hdv_pos : (0 : ℚ) < dyadicVal (m1, g1) := lt_of_lt_of_le (by norm_num) hlow
  by_cases hg : 0 ≤ g1
  · have hval2 : ((100 * m1 * 2 ^ g1.toNat : ℕ) : ℚ) / ((1 : ℕ) : ℚ)
        = 100 * dyadicVal (m1, g1) := by
      simp only [dyadicVal]
      push_cast
      rw [zpow_toNat_two g1 hg]
      ring
    have hA2 : 1 ≤ 100 * m1 * 2 ^ g1.toNat := by
      have h1 : 0 < 100 * m1 * 2 ^ g1.toNat := by positivity
      omega
    have hnorm : (-1022 : ℤ) ≤ ratLog2Floor (100 * m1 * 2 ^ g1.toNat) 1 := by
      have hlb := ratLog2Floor_lb (100 * m1 * 2 ^ g1.toNat) 1 hA2 le_rfl (-33)
        (by rw [two_zpow_neg33, hval2]; linarith)
      omega
    have herr := roundB64_err (100 * m1 * 2 ^ g1.toNat) 1 hA2 le_rfl hnorm
    rw [hval2] at herr
    simp only [b64Mul100, if_pos hg]
    exact herr
  · have hval2 : ((100 * m1 : ℕ) : ℚ) / ((2 ^ (-g1).toNat : ℕ) : ℚ)
        = 100 * dyadicVal (m1, g1) := by
      simp only [dyadicVal]
      push_cast
      rw [zpow_neg_toNat_two g1 (by omega)]
      field_simp
    have hA2 : 1 ≤ 100 * m1 := by omega
    have hB2 : 1 ≤ 2 ^ (-g1).toNat := Nat.one_le_two_pow
    have hnorm : (-1022 : ℤ) ≤ ratLog2Floor (100 * m1) (2 ^ (-g1).toNat) := by
      have hlb := ratLog2Floor_lb (100 * m1) (2 ^ (-g1).toNat) hA2 hB2 (-33)
        (by rw [two_zpow_neg33, hval2]; linarith)
      omega
    have herr := roundB64_err (100 * m1) (2 ^ (-g1).toNat) hA2 hB2 hnorm
    rw [hval2] at herr
    simp only [b64Mul100, if_neg hg]
    exact herr

/-- The full binary64 evaluation of the percentage lands strictly within
one point of the exact value, for every batch a JS array can hold. -/
theorem finalScore_err (c n : Nat) (hc : 1 ≤ c) (hcn : c ≤ n) (hn : n ≤ 2 ^ 32) :
    |(finalScore c n : ℚ) - (c : ℚ) / n * 100| < 1 := by
  have hn1 : 1 ≤ n := le_trans hc hcn
  have hn0 : (0 : ℚ) < n := by exact_mod_cast hn1
  have hc0 : (1 : ℚ) ≤ c := by exact_mod_cast hc
  have hq_pos : 0 < (c : ℚ) / n := by positivity
  have hq_le1 : (c : ℚ) / n ≤ 1 := by
    rw [div_le_one hn0]
    exact_mod_cast hcn
  have hq_lb : (1 : ℚ) / 2 ^ 32 ≤ (c : ℚ) / n := by
    have hnq : (n : ℚ) ≤ 2 ^ 32 := by exact_mod_cast hn
    exact div_le_div₀ (by linarith) hc0 hn0 hnq
  have hE1 : (-1022 : ℤ) ≤ ratLog2Floor c n := by
    have hlb := ratLog2Floor_lb c n hc hn1 (-32) (by rw [two_zpow_neg32]; exact hq_lb)
    omega
  have herr1 := roundB64_err c n hc hn1 hE1
  rcases hr1 : roundB64 c n with ⟨m1, g1⟩
  rw [hr1] at herr1
  have habs1 := abs_le.mp herr1
  have hdv1_lb : (1 : ℚ) / 2 ^ 33 ≤ dyadicVal (m1, g1) := by
    have h2 : (c : ℚ) / n * (1 / 2 ^ 53) ≤ (c : ℚ) / n * (1 / 2) :=
      mul_le_mul_of_nonneg_left (by norm_num) (le_of_lt hq_pos)
    linarith [habs1.1, hq_lb]
  have hm1 : 1 ≤ m1 := by
    by_contra h
    have hm0 : m1 = 0 := by omega
    rw [hm0] at hdv1_lb
    simp only [dyadicVal, Nat.cast_zero, zero_mul] at hdv1_lb
    norm_num at hdv1_lb
  have herr2 := b64Mul100_err m1 g1 hm1 hdv1_lb
  have habs2 := abs_le.mp herr2
  have hsc : (finalScore c n : ℚ)
      = ((⌊dyadicVal (b64Mul100 (m1, g1)) + 1 / 2⌋ : ℤ) : ℚ) := by
    have hdef : finalScore c n = jsMathRound (b64Mul100 (roundB64 c n)) := rfl
    rw [hdef, hr1, jsMathRound_eq]
  have hf1 : ((⌊dyadicVal (b64Mul100 (m1, g1)) + 1 / 2⌋ : ℤ) : ℚ)
      ≤ dyadicVal (b64Mul100 (m1, g1)) + 1 / 2 := Int.floor_le _
  have hf2 : dyadicVal (b64Mul100 (m1, g1)) + 1 / 2
      < ((⌊dyadicVal (b64Mul100 (m1, g1)) + 1 / 2⌋ : ℤ) : ℚ) + 1 := Int.lt_floor_add_one _
  rw [hsc, abs_lt]
  constructor
  · linarith [habs1.1, habs1.2, habs2.1, habs2.2, hq_pos, hq_le1]
  · linarith [habs1.1, habs1.2, habs2.1, habs2.2, hq_pos, hq_le1]

theorem finalScore_zero (n : Nat) : finalScore 0 n = 0 := rfl

/-- C6 counterexample: the code evaluates the percentage in IEEE binary64
doubles, where 23 / 40 rounds down to 0.57499999999999995559... and the
product with 100 is 57.49999999999999289..., so Math.round persists 57;
the spec's exact rounding round(100 × 23 / 40) = round(57.5) gives 58.
The input is reachable: a batch of 40 answers to one multiple-choice
question, 23 of them with the correct option index, passes validation
and the submission succeeds with the attempt row persisted at score
57. -/
theorem finalScore_tie_counterexample :
    finalScore 23 40 = 57 ∧
    finalScorePerSpec 23 40 = 58 ∧
    exReq40.responses.length = 40 ∧
    (match processResponses (questionsFor exDb exReq40) exReq40.responses exOracle exUser
        (newAttemptRow exDb exReq40 exOracle exUser exStageA) 0 with
      | .ok (_, correctCount, _) => some correctCount
      | .error _ => none) = some 23 ∧
    (submitAttempt exDb exReq40 1 exOracle).2.2 = .created 1 "att-40" ∧
    (submitAttempt exDb exReq40 1 exOracle).1.attempts.map
      (fun a => (a.attemptId, a.score)) = [("att-40", some 57)] := by
  refine ⟨by decide, ?_, by decide, by decide, by decide, by decide⟩
  unfold finalScorePerSpec jsRound
  rw [show ((23 : ℕ) : ℚ) / ((40 : ℕ) : ℚ) * 100 + 1 / 2 = 58 by norm_num]
  exact Int.floor_intCast 58

/-- C6 amended: the persisted final score is Math.round applied to the
binary64 evaluation of (correctCount / responses.length) * 100 —
quotient and product each rounded to nearest, ties to even — not to the
exact rational.  For every batch a JS array can hold (0 < n ≤ 2 ^ 32
responses, c ≤ n of them correct) the evaluation error stays below one
point: the persisted score differs from the exact percentage
100 c / n by less than 1, equals it whenever that percentage is an
integer, and differs from the spec's exact rounding by at most 1 (the
difference is realised at exact ties such as 23 of 40); 2 correct of 3
answered still yields 67; and on every successful submission the
attempt row is persisted with exactly finalScore of the correct count
over the batch length — the earned points total never enters the
formula. -/
theorem finalScore_ieee_characterization (c n : Nat) (hcn : c ≤ n) (hn1 : 1 ≤ n)
    (hn : n ≤ 2 ^ 32) :
    (|(finalScore c n : ℚ) - (c : ℚ) / n * 100| < 1
  ∧ (∀ k : ℤ, (c : ℚ) / n * 100 = (k : ℚ) → finalScore c n = k)
  ∧ |finalScore c n - finalScorePerSpec c n| ≤ 1
  ∧ finalScore 2 3 = 67)
  ∧ (∀ (db : DbState) (req : SubmitRequest) (authUserId : Int) (or : SubmitOracle)
      (fid : Int) (aid : String),
      (submitAttempt db req authUserId or).2.2 = .created fid aid →
      ∃ user stage rows correctCount revs,
        processResponses (questionsFor db req) req.responses or user
          (newAttemptRow db req or user stage) 0 = .ok (rows, correctCount, revs) ∧
        ∃ a ∈ (submitAttempt db req authUserId or).1.attempts,
          a.attemptId = req.attemptId ∧
          a.score = some (finalScore correctCount req.responses.length)) := by
  have hn0 : (0 : ℚ) < n := by exact_mod_cast hn1
  have herr : |(finalScore c n : ℚ) - (c : ℚ) / n * 100| < 1 := by
    rcases Nat.eq_zero_or_pos c with hc0 | hc1
    · subst hc0
      rw [finalScore_zero]
      norm_num
    · exact finalScore_err c n hc1 hcn hn
  refine ⟨⟨herr, ?_, ?_, by decide⟩, ?_⟩
  · intro k hk
    rw [hk] at herr
    have h2 : |((finalScore c n - k : ℤ) : ℚ)| < 1 := by push_cast; exact herr
    have h3 : |finalScore c n - k| < 1 := by exact_mod_cast h2
    rw [abs_lt] at h3
    omega
  · have hps : |(finalScorePerSpec c n : ℚ) - (c : ℚ) / n * 100| ≤ 1 / 2 := by
      unfold finalScorePerSpec jsRound
      have hf1 : ((⌊(c : ℚ) / n * 100 + 1 / 2⌋ : ℤ) : ℚ) ≤ (c : ℚ) / n * 100 + 1 / 2 :=
        Int.floor_le _
      have hf2 : (c : ℚ) / n * 100 + 1 / 2
          < ((⌊(c : ℚ) / n * 100 + 1 / 2⌋ : ℤ) : ℚ) + 1 := Int.lt_floor_add_one _
      rw [abs_le]
      constructor <;> linarith
    have habs := abs_lt.mp herr
    have habs2 := abs_le.mp hps
    have h2 : |((finalScore c n - finalScorePerSpec c n : ℤ) : ℚ)| < 2 := by
      push_cast
      rw [abs_lt]
      constructor <;> linarith
    have h3 : |finalScore c n - finalScorePerSpec c n| < 2 := by exact_mod_cast h2
    rw [abs_lt] at h3
    rw [abs_le]
    omega
  · intro db req authUserId or fid aid hcre
    have hsub : submitAttempt db req authUserId or =
        ((submitAttempt db req authUserId or).1, (submitAttempt db req authUserId or).2.1,
          SubmitResult.created fid aid) := by
      rw [← hcre]
    obtain ⟨uid, sid, user, stage, rows, correctCount, revs, payload, hv, hu, hs, hpr, hg,
      hflags, hfid, haid, htr, hst⟩ := submitAttempt_created_inv hsub
    refine ⟨user, stage, rows, correctCount, revs, hpr, ?_⟩
    rw [hst]
    obtain ⟨a, hmem, haid2, hscore, _⟩ :=
      committedState_attempt_mem db req or uid sid user stage rows correctCount payload
    exact ⟨a, hmem, haid2, hscore⟩

/-- C6 witness: at 2 correct of 3 answered the hypotheses hold, the
binary64 score is 67 and within one point of the exact percentage, one
point of the exact rounding, and the concrete successful submission
persists the attempt row with that score of the correct count over the
batch length. -/
theorem finalScore_ieee_characterization_witness :
    ((2 : Nat) ≤ 3 ∧ (1 : Nat) ≤ 3 ∧ (3 : Nat) ≤ 2 ^ 32) ∧
    (|(finalScore 2 3 : ℚ) - (2 : ℚ) / 3 * 100| < 1
      ∧ (∀ k : ℤ, (2 : ℚ) / 3 * 100 = (k : ℚ) → finalScore 2 3 = k)
      ∧ |finalScore 2 3 - finalScorePerSpec 2 3| ≤ 1
      ∧ finalScore 2 3 = 67) ∧
    (∃ user stage rows correctCount revs,
      processResponses (questionsFor exDb exReq) exReq.responses exOracle user
        (newAttemptRow exDb exReq exOracle user stage) 0 = .ok (rows, correctCount, revs) ∧
      ∃ a ∈ (submitAttempt exDb exReq 1 exOracle).1.attempts,
        a.attemptId = exReq.attemptId ∧
        a.score = some (finalScore correctCount exReq.responses.length)) :=
  ⟨⟨by decide, by decide, by decide⟩,
    (finalScore_ieee_characterization 2 3 (by decide) (by decide) (by decide)).1,
    (finalScore_ieee_characterization 2 3 (by decide) (by decide) (by decide)).2
      exDb exReq 1 exOracle 1 "att-1" (by decide)⟩

end QAEval
